/-
Verification of the steamanalysis data aggregation core
(src/analysis/data_loader.py) against its specification.

Shallow embedding conventions:
- Python dictionaries of known shape become structures; `x.get(k) or 0`
  coalescing of nullable numeric fields is folded into the field itself,
  so a numeric field models the value after `or 0` (absent and 0 are
  indistinguishable in the source wherever these fields are read).
- Millisecond timestamps are natural numbers; a timestamp of 0 models a
  missing or falsy timestamp, matching the `if not ts: continue` guards.
- `datetime.fromtimestamp(int(ts) / 1000)` is modelled by a civil-calendar
  conversion of the epoch timestamp, with the timezone fixed to UTC and
  timestamps assumed inside the range datetime can represent.
- Floating point arithmetic is modelled by exact rational arithmetic;
  `round(x, n)` is modelled by half-up rounding of the exact rational.
- Python dicts used as accumulators keep last-written values; they are
  modelled either by association lists updated in place or by the last
  matching element of the underlying traversal, as noted at each use.
-/
import Mathlib

set_option maxRecDepth 8000

/-- Year and month of a day count (days since 1970-01-01) in the civil
calendar, by the standard civil-from-days algorithm; this models the
calendar arithmetic behind datetime.fromtimestamp. -/
def civilYM (days : Nat) : Nat × Nat :=
  let z := days + 719468
  let era := z / 146097
  let doe := z % 146097
  let yoe := (doe - doe / 1460 + doe / 36524 - doe / 146096) / 365
  let y := yoe + era * 400
  let doy := doe - (365 * yoe + yoe / 4 - yoe / 100)
  let mp := (5 * doy + 2) / 153
  let m := if mp < 10 then mp + 3 else mp - 9
  (if m ≤ 2 then y + 1 else y, m)

/-- Calendar year of an epoch-millisecond timestamp:
datetime.fromtimestamp(int(ts) / 1000).year (UTC). -/
def yearOfMs (ts : Nat) : Nat := (civilYM (ts / 86400000)).1

/-- Calendar month of an epoch-millisecond timestamp. -/
def monthOfMs (ts : Nat) : Nat := (civilYM (ts / 86400000)).2

/-- Period key of a timestamp: `dt.year if freq == "yearly" else
dt.strftime("%Y-%m")`. The yearly key (an int) is modelled by the year
itself; the monthly key (the string "YYYY-MM") is modelled by
year * 100 + month, which compares in the same order as the string
compares lexicographically for four-digit years. -/
def periodOf (freq : String) (ts : Nat) : Nat :=
  if freq = "yearly" then yearOfMs ts else yearOfMs ts * 100 + monthOfMs ts

/-- One history snapshot. Numeric fields model the value after the
`item.get(k) or 0` coalescing performed at every read site; sales and
revenue are integers so that `max(0, cur - prev)` keeps its meaning,
the point-in-time metrics are rationals. -/
structure Snap where
  timeStamp : Nat
  sales : Int
  revenue : Int
  players : ℚ
  score : ℚ
  avgPlaytime : ℚ
  price : ℚ
  followers : ℚ
  wishlists : ℚ
  reviews : ℚ
deriving DecidableEq, Repr

/-- One audienceOverlap edge: name models `ao.get("name", sid)`, link
models `ao.get("link") or 0`, the remaining numerics model `or 0`. -/
structure OverlapEdge where
  steamId : String
  name : String
  link : ℚ
  genres : List String
  copiesSold : ℚ
  revenue : ℚ
  players : ℚ
deriving DecidableEq, Repr

/-- A game record, with every nullable numeric field modelled after the
`or 0` coalescing used at all read sites. reviewScore is a natural
number (a review score is a 0..100 percentage). countryData models
`g.get("countryData") or {}`; the empty list models a missing or empty
dict. -/
structure Game where
  steamId : String
  name : String
  genres : List String
  tags : List String
  revenue : ℚ
  copiesSold : ℚ
  reviewScore : Nat
  players : ℚ
  reviews : ℚ
  avgPlaytime : ℚ
  followers : ℚ
  wishlists : ℚ
  owners : ℚ
  steamPercent : ℚ
  price : ℚ
  countryData : List (String × ℚ)
  history : List Snap
  audienceOverlap : List OverlapEdge
deriving DecidableEq, Repr

/-- Comparison used by sorted(history, key=lambda x: x.get("timeStamp", 0)). -/
def tsLe (a b : Snap) : Prop := a.timeStamp ≤ b.timeStamp

instance : DecidableRel tsLe := fun a b => Nat.decLe a.timeStamp b.timeStamp

instance : IsTotal Snap tsLe := ⟨fun a b => Nat.le_total a.timeStamp b.timeStamp⟩

instance : IsTrans Snap tsLe := ⟨fun _ _ _ h1 h2 => Nat.le_trans h1 h2⟩

/-- Stable ascending sort of a history by timestamp, modelling pythons
stable sorted(...) with the timestamp key. -/
def sortTs (l : List Snap) : List Snap := List.insertionSort tsLe l

/-- Last element of a list satisfying a predicate. This models the final
value of a dict entry assigned by `d[key] = item` inside a loop over the
list: the last write wins. -/
def lastSat (q : Snap → Bool) : List Snap → Option Snap
  | [] => none
  | x :: xs =>
    match lastSat q xs with
    | some s => some s
    | none => if q x then some x else none

/-- Distinct elements of a list in order of first occurrence: models the
key insertion order of a python dict or Counter. -/
def firstDedup {α : Type} [DecidableEq α] (l : List α) : List α :=
  l.reverse.dedup.reverse

/-- Ascending sort of integer period keys: sorted(by_period.keys()). -/
def sortAscNat (l : List Nat) : List Nat := List.insertionSort (· ≤ ·) l

/-- Comparison for pythons stable descending sort by a key function:
sorted(l, key=key, reverse=True). -/
def descRel {α β : Type} [LinearOrder β] (key : α → β) (a b : α) : Prop :=
  key b ≤ key a

instance {α β : Type} [LinearOrder β] (key : α → β) : DecidableRel (descRel key) :=
  fun a b => inferInstanceAs (Decidable (key b ≤ key a))

/-- sorted(l, key=key, reverse=True), stable among equal keys. -/
def sortDescBy {α β : Type} [LinearOrder β] (key : α → β) (l : List α) : List α :=
  List.insertionSort (descRel key) l

/-- max(l) of a nonempty list, with default 0 for the empty one; models
both `max(lst) if lst else 0` and `max(gen, default=0)`. -/
def maxQD (l : List ℚ) : ℚ :=
  match l with
  | [] => 0
  | x :: xs => xs.foldl max x

/-- Mean over the strictly positive values, `_avg` in the source:
lst = [x for x in lst if x and x > 0]; sum(lst) / len(lst) if lst else 0. -/
def avgPos (l : List ℚ) : ℚ :=
  let m := l.filter (fun x => decide (0 < x))
  if m.length = 0 then 0 else m.sum / m.length

/-- round(q, d): pythons round modelled on the exact rational, half up. -/
def roundTo (d : Nat) (q : ℚ) : ℚ :=
  (Int.floor (q * 10 ^ d + 1 / 2) : ℚ) / 10 ^ d

/-- Ascending sort of rationals (for the median index of `_stats`). -/
def sortAscQ (l : List ℚ) : List ℚ := List.insertionSort (· ≤ ·) l

/-- Snapshot usability guard `if not ts: continue`. -/
def hasTs (s : Snap) : Bool := s.timeStamp != 0

/-- The per-period dict by_period built by `by_period[period] = item`
while iterating l in order: the value stored at key p is the last
element of l whose key is p (last write wins). -/
def byPeriod (usable : Snap → Bool) (key : Snap → Nat) (l : List Snap) (p : Nat) :
    Option Snap :=
  lastSat (fun s => usable s && (key s == p)) l

/-- sorted(by_period.keys()): the distinct period keys, ascending. -/
def periodKeys (usable : Snap → Bool) (key : Snap → Nat) (l : List Snap) : List Nat :=
  sortAscNat (firstDedup ((l.filter usable).map key))

/-- The ordered (period, winning snapshot) pairs that the increment loops
walk: `for period in sorted(by_period.keys()): item = by_period[period]`. -/
def periodItems (usable : Snap → Bool) (key : Snap → Nat) (l : List Snap) :
    List (Nat × Snap) :=
  (periodKeys usable key l).filterMap
    (fun p => (byPeriod usable key l p).map (fun s => (p, s)))

/-- Walk the per-period items carrying the running (prev_sales,
prev_revenue) baseline. Each item is paired with the baseline in force
when it is visited; after each item the baseline becomes that items raw
cumulative values (`prev_sales = cur_sales`, not prev + increment). -/
def walkPrev : List (Nat × Snap) → Int → Int → List ((Nat × Snap) × Int × Int)
  | [], _, _ => []
  | (p, it) :: rest, prevS, prevR =>
    ((p, it), prevS, prevR) :: walkPrev rest it.sales it.revenue

/-- One output entry of `_get_yearly_increments`. -/
structure IncEntry where
  sales : Int
  revenue : Int
  cumulative_sales : Int
  cumulative_revenue : Int
  score : ℚ
deriving DecidableEq, Repr

/-- The entry `_get_yearly_increments` emits for one period, given the
winning snapshot and the running baseline. -/
def mkIncEntry (it : Snap) (prevS prevR : Int) : IncEntry :=
  { sales := max 0 (it.sales - prevS)
    revenue := max 0 (it.revenue - prevR)
    cumulative_sales := it.sales
    cumulative_revenue := it.revenue
    score := it.score }

/-- _get_yearly_increments(history). Note: the source does not sort the
input, so the per-year dict keeps the snapshot listed last within each
year, not necessarily the one with the maximum timestamp. -/
def get_yearly_increments (history : List Snap) : List (Nat × IncEntry) :=
  (walkPrev (periodItems hasTs (fun s => yearOfMs s.timeStamp) history) 0 0).map
    (fun w => (w.1.1, mkIncEntry w.1.2 w.2.1 w.2.2))

/-- One output entry of get_history_for_game. -/
structure HistEntry where
  sales_inc : Int
  revenue_inc : Int
  cumul_sales : Int
  cumul_revenue : Int
  ccu : ℚ
  score : ℚ
  playtime : ℚ
  price : ℚ
  followers : ℚ
  wishlists : ℚ
  reviews : ℚ
deriving DecidableEq, Repr

/-- The entry get_history_for_game emits for one period. -/
def mkHistEntry (it : Snap) (prevS prevR : Int) : HistEntry :=
  { sales_inc := max 0 (it.sales - prevS)
    revenue_inc := max 0 (it.revenue - prevR)
    cumul_sales := it.sales
    cumul_revenue := it.revenue
    ccu := it.players
    score := it.score
    playtime := it.avgPlaytime
    price := it.price
    followers := it.followers
    wishlists := it.wishlists
    reviews := it.reviews }

/-- get_history_for_game(game, freq): sorts the history by timestamp,
collapses it per period (last write wins, hence max timestamp after the
sort), then walks the sorted periods with the running baseline. -/
def get_history_for_game (g : Game) (freq : String) : List (Nat × HistEntry) :=
  (walkPrev (periodItems hasTs (fun s => periodOf freq s.timeStamp) (sortTs g.history)) 0 0).map
    (fun w => (w.1.1, mkHistEntry w.1.2 w.2.1 w.2.2))

/-- Accumulator of get_yearly_trends for one year (the defaultdict value
{"revenue": 0, "sales": 0, "game_count": 0, "score_sum": 0, "score_count": 0}). -/
structure TrendAcc where
  revenue : Int
  sales : Int
  game_count : Nat
  score_sum : ℚ
  score_count : Nat
deriving DecidableEq, Repr

/-- The zero accumulator of the trends defaultdict. -/
def trendAcc0 : TrendAcc :=
  { revenue := 0, sales := 0, game_count := 0, score_sum := 0, score_count := 0 }

/-- One update of the trends accumulator by one increment entry:
revenue and sales are always added, game_count counts entries with
positive sales increment, score_sum and score_count only positive scores. -/
def trendAdd (a : TrendAcc) (d : IncEntry) : TrendAcc :=
  { revenue := a.revenue + d.revenue
    sales := a.sales + d.sales
    game_count := a.game_count + (if 0 < d.sales then 1 else 0)
    score_sum := a.score_sum + (if 0 < d.score then d.score else 0)
    score_count := a.score_count + (if 0 < d.score then 1 else 0) }

/-- Inner loop of get_yearly_trends over one games increment entries,
updating the per-year accumulator table (modelled as a function). -/
def trendStepEntries : List (Nat × IncEntry) → (Nat → TrendAcc) → (Nat → TrendAcc)
  | [], acc => acc
  | (yr, d) :: rest, acc =>
    trendStepEntries rest (fun y => if y = yr then trendAdd (acc yr) d else acc y)

/-- Outer loop of get_yearly_trends over the games. -/
def trendFold : List Game → (Nat → TrendAcc) → (Nat → TrendAcc)
  | [], acc => acc
  | g :: gs, acc => trendFold gs (trendStepEntries (get_yearly_increments g.history) acc)

/-- One output entry of get_yearly_trends. -/
structure TrendEntry where
  revenue : Int
  sales : Int
  game_count : Nat
  avg_score : ℚ
deriving DecidableEq, Repr

/-- get_yearly_trends(games): accumulate each games yearly increments,
then emit the sorted years; avg_score divides only by the count of
positive scores, or is 0 when there are none. -/
def get_yearly_trends (games : List Game) : List (Nat × TrendEntry) :=
  let acc := trendFold games (fun _ => trendAcc0)
  let years :=
    sortAscNat (firstDedup
      ((games.map (fun g => (get_yearly_increments g.history).map (fun pe => pe.1))).flatten))
  years.map (fun y =>
    (y, { revenue := (acc y).revenue
          sales := (acc y).sales
          game_count := (acc y).game_count
          avg_score :=
            if (acc y).score_count = 0 then 0
            else (acc y).score_sum / ((acc y).score_count : ℚ) }))

/-- Accumulator of get_genre_stats and get_tag_stats for one key (the
defaultdict value {"revenue_sum": 0, "sales_sum": 0, "score_sum": 0,
"count": 0, "score_count": 0}). -/
structure CatAcc where
  revenue_sum : ℚ
  sales_sum : ℚ
  score_sum : Nat
  count : Nat
  score_count : Nat
deriving DecidableEq, Repr

/-- The zero accumulator of the category defaultdict. -/
def catAcc0 : CatAcc :=
  { revenue_sum := 0, sales_sum := 0, score_sum := 0, count := 0, score_count := 0 }

/-- One update of a category accumulator by one game: sums are always
added, score_sum and score_count only when the score is positive. -/
def catBump (a : CatAcc) (g : Game) : CatAcc :=
  { revenue_sum := a.revenue_sum + g.revenue
    sales_sum := a.sales_sum + g.copiesSold
    score_sum := a.score_sum + (if 0 < g.reviewScore then g.reviewScore else 0)
    count := a.count + 1
    score_count := a.score_count + (if 0 < g.reviewScore then 1 else 0) }

/-- Inner loop `for genre in (g.get("genres") or [])` of the category
statistics, over one games key list. -/
def catStepKeys (g : Game) : List String → (String → CatAcc) → (String → CatAcc)
  | [], acc => acc
  | k :: ks, acc =>
    catStepKeys g ks (fun k2 => if k2 = k then catBump (acc k) g else acc k2)

/-- Outer loop of the category statistics over the games, with proj
selecting the multi-valued field (genres or tags). -/
def catFold (proj : Game → List String) : List Game → (String → CatAcc) → (String → CatAcc)
  | [], acc => acc
  | g :: gs, acc => catFold proj gs (catStepKeys g (proj g) acc)

/-- One output entry of get_genre_stats / get_tag_stats. -/
structure CatStats where
  game_count : Nat
  avg_revenue : ℚ
  avg_sales : ℚ
  avg_score : ℚ
  total_revenue : ℚ
deriving DecidableEq, Repr

/-- Finalisation of one category accumulator into the emitted stats:
averages guard division by zero, avg_score divides by score_count only. -/
def catFinalize (a : CatAcc) : CatStats :=
  { game_count := a.count
    avg_revenue := if a.count = 0 then 0 else a.revenue_sum / (a.count : ℚ)
    avg_sales := if a.count = 0 then 0 else a.sales_sum / (a.count : ℚ)
    avg_score := if a.score_count = 0 then 0 else (a.score_sum : ℚ) / (a.score_count : ℚ)
    total_revenue := a.revenue_sum }

/-- The distinct category keys in first-appearance order (the defaultdict
key insertion order). -/
def catKeys (proj : Game → List String) (games : List Game) : List String :=
  firstDedup ((games.map proj).flatten)

/-- The (key, accumulator) items of the category statistics dict. -/
def catItems (proj : Game → List String) (games : List Game) : List (String × CatAcc) :=
  (catKeys proj games).map (fun k => (k, catFold proj games (fun _ => catAcc0) k))

/-- get_genre_stats(games): accumulate per genre, sort the items by
revenue_sum descending, finalise. -/
def get_genre_stats (games : List Game) : List (String × CatStats) :=
  (sortDescBy (fun (ka : String × CatAcc) => ka.2.revenue_sum) (catItems Game.genres games)).map
    (fun ka => (ka.1, catFinalize ka.2))

/-- get_tag_stats(games): accumulate per tag, sort the items by count
descending, finalise. -/
def get_tag_stats (games : List Game) : List (String × CatStats) :=
  (sortDescBy (fun (ka : String × CatAcc) => ka.2.count) (catItems Game.tags games)).map
    (fun ka => (ka.1, catFinalize ka.2))

/-- Weight of one record in get_country_aggregate: `g.get("revenue") or 1`
(so zero or absent weight metric falls back to 1), `g.get("copiesSold")
or 1`, or the constant 1. Any other weight_by string also takes the
`else` branch, i.e. constant weight. -/
def weightOf (weight_by : String) (g : Game) : ℚ :=
  if weight_by = "revenue" then (if g.revenue = 0 then 1 else g.revenue)
  else if weight_by = "sales" then (if g.copiesSold = 0 then 1 else g.copiesSold)
  else 1

/-- In-place accumulation `weighted[code] += d` on an association list
modelling defaultdict(float): an existing key is updated in place, a new
key is appended (dict insertion order). -/
def bumpAssoc : List (String × ℚ) → String → ℚ → List (String × ℚ)
  | [], c, d => [(c, d)]
  | (k, v) :: t, c, d =>
    if k = c then (k, v + d) :: t else (k, v) :: bumpAssoc t c d

/-- Inner loop `for code, pct in cd.items(): weighted[code] += pct * w`. -/
def addCountryData (w : ℚ) : List (String × ℚ) → List (String × ℚ) → List (String × ℚ)
  | acc, [] => acc
  | acc, (code, pct) :: rest => addCountryData w (bumpAssoc acc code (pct * w)) rest

/-- The main loop of get_country_aggregate: returns the weighted dict as
an association list together with total_weight. Records with missing or
empty countryData are skipped entirely (they contribute to neither the
numerator nor the denominator). -/
def countryLoop (weight_by : String) :
    List Game → List (String × ℚ) × ℚ → List (String × ℚ) × ℚ
  | [], acc => acc
  | g :: gs, (wl, tw) =>
    if g.countryData = [] then countryLoop weight_by gs (wl, tw)
    else
      countryLoop weight_by gs
        (addCountryData (weightOf weight_by g) wl g.countryData,
         tw + weightOf weight_by g)

/-- The `result` dict of get_country_aggregate before country-name
decoration and top-30 truncation: empty when total_weight is 0,
otherwise the weighted sums sorted by raw value descending, each divided
by total_weight and rounded to 2 decimal places. -/
def countryRounded (games : List Game) (weight_by : String) : List (String × ℚ) :=
  let wt := countryLoop weight_by games ([], 0)
  if wt.2 = 0 then []
  else
    (sortDescBy (fun (kv : String × ℚ) => kv.2) wt.1).map
      (fun kv => (kv.1, roundTo 2 (kv.2 / wt.2)))

/-- The static COUNTRY_NAMES table of get_country_aggregate. -/
def COUNTRY_NAMES : List (String × String) :=
  [("us", "미국"), ("cn", "중국"), ("ru", "러시아"), ("de", "독일"),
   ("gb", "영국"), ("fr", "프랑스"), ("br", "브라질"), ("kr", "한국"),
   ("jp", "일본"), ("ca", "캐나다"), ("au", "호주"), ("pl", "폴란드"),
   ("tr", "튀르키예"), ("ua", "우크라이나"), ("nl", "네덜란드"),
   ("se", "스웨덴"), ("mx", "멕시코"), ("ar", "아르헨티나"),
   ("it", "이탈리아"), ("es", "스페인"), ("in", "인도"), ("vn", "베트남"),
   ("th", "태국"), ("id", "인도네시아"), ("sg", "싱가포르")]

/-- Display name decoration f"{COUNTRY_NAMES.get(code, code.upper())}
({code.upper()})" of get_country_aggregate. -/
def decorateCountry (code : String) : String :=
  (((COUNTRY_NAMES.find? (fun kv => kv.1 == code)).map (fun kv => kv.2)).getD
    code.toUpper) ++ " (" ++ code.toUpper ++ ")"

/-- get_country_aggregate(games, weight_by): the rounded result dict,
truncated to the first 30 entries, with decorated country names. -/
def get_country_aggregate (games : List Game) (weight_by : String) :
    List (String × ℚ) :=
  ((countryRounded games weight_by).take 30).map
    (fun kv => (decorateCountry kv.1, kv.2))

/-- The closed-form weighted numerator for one country code: the sum over
records with non-empty country data of (sum of that records shares for
the code) times the records weight. -/
def countryRawSum (games : List Game) (weight_by : String) (c : String) : ℚ :=
  ((games.filter (fun g => !(g.countryData == []))).map
    (fun g => ((g.countryData.filter (fun kv => kv.1 == c)).map (fun kv => kv.2)).sum
      * weightOf weight_by g)).sum

/-- The closed-form denominator: total weight over exactly the records
that supplied non-empty country data. -/
def countryTotalWeight (games : List Game) (weight_by : String) : ℚ :=
  ((games.filter (fun g => !(g.countryData == []))).map (weightOf weight_by)).sum

/-- The summary struct `_stats` emits for one metric. count is an Option:
the zero branch of the source returns a dict without the "count" key,
modelled as none. -/
structure StatsQ where
  avg : ℚ
  max : ℚ
  median : ℚ
  total : ℚ
  count : Option Nat
deriving DecidableEq, Repr

/-- `_stats(vals)` of get_activity_summary: restrict to strictly positive
values; on the empty rest return the zero struct (which carries no
count field); otherwise mean, max, upper median, sum and count. -/
def statsQ (vals : List ℚ) : StatsQ :=
  let v := vals.filter (fun x => decide (0 < x))
  if v.length = 0 then
    { avg := 0, max := 0, median := 0, total := 0, count := none }
  else
    { avg := v.sum / (v.length : ℚ)
      max := maxQD v
      median := (sortAscQ v).getD (v.length / 2) 0
      total := v.sum
      count := some v.length }

/-- The full record get_activity_summary returns (one StatsQ per metric
in its fixed list). -/
structure ActivitySummary where
  players_ccu : StatsQ
  reviews : StatsQ
  review_score : StatsQ
  avg_playtime : StatsQ
  followers : StatsQ
  wishlists : StatsQ
  owners : StatsQ
  steam_percent : StatsQ
  price : StatsQ
  copies_sold : StatsQ
  revenue : StatsQ
deriving DecidableEq, Repr

/-- get_activity_summary(games): `{}` (modelled none) on an empty game
list, otherwise `_stats` of each metric column. -/
def get_activity_summary (games : List Game) : Option ActivitySummary :=
  if games = [] then none
  else
    some
      { players_ccu := statsQ (games.map (fun g => g.players))
        reviews := statsQ (games.map (fun g => g.reviews))
        review_score := statsQ (games.map (fun g => (g.reviewScore : ℚ)))
        avg_playtime := statsQ (games.map (fun g => g.avgPlaytime))
        followers := statsQ (games.map (fun g => g.followers))
        wishlists := statsQ (games.map (fun g => g.wishlists))
        owners := statsQ (games.map (fun g => g.owners))
        steam_percent := statsQ (games.map (fun g => g.steamPercent))
        price := statsQ (games.map (fun g => g.price))
        copies_sold := statsQ (games.map (fun g => g.copiesSold))
        revenue := statsQ (games.map (fun g => g.revenue)) }

/-- All surviving audienceOverlap edges of the filtered games, in
traversal order: the double loop with the `if link > 0.05` noise floor. -/
def survivingEdges (games : List Game) : List OverlapEdge :=
  ((games.map (fun g => g.audienceOverlap)).flatten).filter
    (fun ao => decide ((1 : ℚ) / 20 < ao.link))

/-- overlap_data[sid]: the surviving edges referencing one target, in
append order. -/
def overlapData (games : List Game) (sid : String) : List OverlapEdge :=
  (survivingEdges games).filter (fun ao => ao.steamId == sid)

/-- The Counter items (sid, count) in key insertion order; the count of a
target is the number of surviving edges referencing it (every edge
counts, even two edges from the same source record). -/
def overlapCounter (games : List Game) : List (String × Nat) :=
  (firstDedup ((survivingEdges games).map (fun ao => ao.steamId))).map
    (fun sid => (sid, (overlapData games sid).length))

/-- One output entry of get_audience_overlap_top. -/
structure OverTop where
  steamId : String
  name : String
  overlap_game_count : Nat
  overlap_pct : ℚ
  avg_link : ℚ
  copies_sold : ℚ
  revenue : ℚ
  ccu : ℚ
  reach_score : ℚ
  genres : List String
deriving DecidableEq, Repr

/-- Build one ranking entry for a target: the displayed avg_link is
rounded to 3 decimals but reach_score uses the unrounded mean;
copies_sold, revenue and ccu are maxima over the referencing edges. -/
def mkOverTop (total_games : Nat) (sid : String) (cnt : Nat)
    (items : List OverlapEdge) : OverTop :=
  let avg_link := (items.map (fun x => x.link)).sum / (items.length : ℚ)
  let copies_sold := maxQD (items.map (fun x => x.copiesSold))
  { steamId := sid
    name := ((items.map (fun x => x.name)).head?).getD sid
    overlap_game_count := cnt
    overlap_pct :=
      if 0 < total_games then roundTo 1 ((cnt : ℚ) / (total_games : ℚ) * 100) else 0
    avg_link := roundTo 3 avg_link
    copies_sold := copies_sold
    revenue := maxQD (items.map (fun x => x.revenue))
    ccu := maxQD (items.map (fun x => x.players))
    reach_score := avg_link * copies_sold
    genres := ((items.map (fun x => x.genres)).head?).getD [] }

/-- The sort key table of get_audience_overlap_top;
`sort_keys.get(sort_by, sort_keys["reach_score"])` makes every unknown
string fall back to the reach_score key. -/
def overlapSortKey (sort_by : String) (e : OverTop) : ℚ :=
  if sort_by = "reach_score" then e.reach_score
  else if sort_by = "avg_link" then e.avg_link
  else if sort_by = "overlap_game_count" then (e.overlap_game_count : ℚ)
  else if sort_by = "copies_sold" then e.copies_sold
  else e.reach_score

/-- get_audience_overlap_top(games, top_n, sort_by): keep the
most-referenced 2*top_n targets (Counter.most_common is a stable
descending sort by count), build their entries, then sort by the chosen
key descending and truncate to top_n. -/
def get_audience_overlap_top (games : List Game) (top_n : Nat) (sort_by : String) :
    List OverTop :=
  let candidates :=
    (sortDescBy (fun (kv : String × Nat) => kv.2) (overlapCounter games)).take (top_n * 2)
  let result :=
    candidates.map (fun kv => mkOverTop games.length kv.1 kv.2 (overlapData games kv.1))
  (sortDescBy (overlapSortKey sort_by) result).take top_n

/-- Window guard of get_history_aggregate:
`if dt.year < year_min or dt.year > year_max: continue`, on top of the
timestamp guard. -/
def usableInWindow (year_min year_max : Nat) (s : Snap) : Bool :=
  hasTs s && decide (year_min ≤ yearOfMs s.timeStamp)
    && decide (yearOfMs s.timeStamp ≤ year_max)

/-- The values appended to the per-period buckets for one game in one
period by get_history_aggregate. -/
structure AggContrib where
  sales_inc : Int
  revenue_inc : Int
  ccu : ℚ
  score : ℚ
  playtime : ℚ
  price : ℚ
  followers : ℚ
  wishlists : ℚ
deriving DecidableEq, Repr

/-- The bucket contribution of one winning snapshot given the running
baseline. -/
def mkAggContrib (it : Snap) (prevS prevR : Int) : AggContrib :=
  { sales_inc := max 0 (it.sales - prevS)
    revenue_inc := max 0 (it.revenue - prevR)
    ccu := it.players
    score := it.score
    playtime := it.avgPlaytime
    price := it.price
    followers := it.followers
    wishlists := it.wishlists }

/-- The (period, contribution) pairs of one game in get_history_aggregate:
sort the history, collapse per period inside the year window, walk with
the running baseline. -/
def aggContribs (freq : String) (year_min year_max : Nat) (g : Game) :
    List (Nat × AggContrib) :=
  (walkPrev
      (periodItems (usableInWindow year_min year_max)
        (fun s => periodOf freq s.timeStamp) (sortTs g.history)) 0 0).map
    (fun w => (w.1.1, mkAggContrib w.1.2 w.2.1 w.2.2))

/-- All (period, contribution) pairs over the games, in append order. -/
def allAggContribs (games : List Game) (freq : String) (year_min year_max : Nat) :
    List (Nat × AggContrib) :=
  (games.map (aggContribs freq year_min year_max)).flatten

/-- period_buckets[period], as the list of contributions in append order. -/
def aggBucket (games : List Game) (freq : String) (year_min year_max : Nat)
    (p : Nat) : List AggContrib :=
  ((allAggContribs games freq year_min year_max).filter (fun c => c.1 == p)).map
    (fun c => c.2)

/-- One output entry of get_history_aggregate. -/
structure AggEntry where
  sales_inc : Int
  revenue_inc : Int
  avg_ccu : ℚ
  max_ccu : ℚ
  total_ccu : ℚ
  avg_score : ℚ
  avg_playtime : ℚ
  avg_price : ℚ
  avg_followers : ℚ
  avg_wishlists : ℚ
  total_games : Nat
deriving DecidableEq, Repr

/-- Finalisation of one periods buckets: increments are summed, the
point-in-time metrics averaged over their positive values, max and
total ccu over the positive ccu values, and total_games is the length
of the sales_inc bucket (every contributing record, whether or not its
increment is positive). -/
def mkAggEntry (b : List AggContrib) : AggEntry :=
  let ccu_list := (b.map (fun c => c.ccu)).filter (fun x => decide (0 < x))
  { sales_inc := (b.map (fun c => c.sales_inc)).sum
    revenue_inc := (b.map (fun c => c.revenue_inc)).sum
    avg_ccu := avgPos (b.map (fun c => c.ccu))
    max_ccu := maxQD ccu_list
    total_ccu := ccu_list.sum
    avg_score := avgPos (b.map (fun c => c.score))
    avg_playtime := avgPos (b.map (fun c => c.playtime))
    avg_price := avgPos (b.map (fun c => c.price))
    avg_followers := avgPos (b.map (fun c => c.followers))
    avg_wishlists := avgPos (b.map (fun c => c.wishlists))
    total_games := b.length }

/-- get_history_aggregate(games, freq, year_min, year_max): the sorted
periods with their finalised buckets. -/
def get_history_aggregate (games : List Game) (freq : String)
    (year_min year_max : Nat) : List (Nat × AggEntry) :=
  let periods :=
    sortAscNat (firstDedup
      ((allAggContribs games freq year_min year_max).map (fun c => c.1)))
  periods.map (fun p => (p, mkAggEntry (aggBucket games freq year_min year_max p)))

/-- A game with the out-of-window snapshots removed from its history
(used to state that such snapshots contribute nothing). -/
def dropOutOfWindow (year_min year_max : Nat) (g : Game) : Game :=
  { g with history :=
      g.history.filter (fun s =>
        decide (year_min ≤ yearOfMs s.timeStamp)
          && decide (yearOfMs s.timeStamp ≤ year_max)) }

/-- The sales increment a game contributes to a year in get_yearly_trends
(0 when the game has no entry for that year). -/
def salesIncAt (g : Game) (y : Nat) : Int :=
  (((get_yearly_increments g.history).find? (fun pe => pe.1 == y)).map
    (fun pe => pe.2.sales)).getD 0

/-- The score a game contributes to a year in get_yearly_trends: its
entry score, kept only when strictly positive. -/
def scoreContribAt (g : Game) (y : Nat) : Option ℚ :=
  match (get_yearly_increments g.history).find? (fun pe => pe.1 == y) with
  | some pe => if 0 < pe.2.score then some pe.2.score else none
  | none => none

/-- The strictly positive scores contributed to a year, across the games. -/
def posScoresAt (games : List Game) (y : Nat) : List ℚ :=
  games.filterMap (fun g => scoreContribAt g y)

/-- Whether a game contributes an entry for period p to
get_history_aggregate (regardless of the sign of its increment). -/
def hasPeriodContrib (freq : String) (year_min year_max : Nat) (g : Game)
    (p : Nat) : Bool :=
  ((aggContribs freq year_min year_max g).find? (fun c => c.1 == p)).isSome

/-- The score a game contributes to a period of get_history_aggregate:
the score of its bucket entry for that period, kept only when strictly
positive (absent games and non-positive scores contribute nothing). -/
def aggScoreContribAt (freq : String) (year_min year_max : Nat) (g : Game)
    (p : Nat) : Option ℚ :=
  match (aggContribs freq year_min year_max g).find? (fun c => c.1 == p) with
  | some c => if 0 < c.2.score then some c.2.score else none
  | none => none

/-- The strictly positive scores contributed to one period of
get_history_aggregate, across the games in order. -/
def aggPosScoresAt (games : List Game) (freq : String) (year_min year_max : Nat)
    (p : Nat) : List ℚ :=
  games.filterMap (fun g => aggScoreContribAt freq year_min year_max g p)

/-- Value lookup in the weighted association list (0 when absent). -/
def lookupQ (l : List (String × ℚ)) (c : String) : ℚ :=
  (((l.find? (fun kv => kv.1 == c)).map (fun kv => kv.2)).getD 0)

/-- A snapshot with every field zero or missing; concrete examples
override single fields. -/
def snap0 : Snap :=
  { timeStamp := 0, sales := 0, revenue := 0, players := 0, score := 0,
    avgPlaytime := 0, price := 0, followers := 0, wishlists := 0, reviews := 0 }

/-- A record with every field empty or zero; concrete examples override
single fields. -/
def game0 : Game :=
  { steamId := "g0", name := "G0", genres := [], tags := [], revenue := 0,
    copiesSold := 0, reviewScore := 0, players := 0, reviews := 0,
    avgPlaytime := 0, followers := 0, wishlists := 0, owners := 0,
    steamPercent := 0, price := 0, countryData := [], history := [],
    audienceOverlap := [] }

/-- Snapshot early in 1970 (ts 1000 ms), used by the reorder example. -/
def sOld : Snap := { snap0 with timeStamp := 1000, sales := 3, revenue := 30 }

/-- Later snapshot of the same year 1970 with different cumulatives. -/
def sNew : Snap := { snap0 with timeStamp := 2000, sales := 7, revenue := 70 }

/-- Snapshot in 1970 with cumulative sales 10. -/
def sY70 : Snap := { snap0 with timeStamp := 1000, sales := 10, revenue := 100 }

/-- Snapshot in 1971 whose cumulative sales decreased to 4. -/
def sY71 : Snap := { snap0 with timeStamp := 46000000000, sales := 4, revenue := 120 }

/-- A two-year history whose cumulative sales decrease. -/
def hDec : List Snap := [sY70, sY71]

/-- A game carrying the decreasing two-year history. -/
def gT : Game := { game0 with history := hDec }

/-- Snapshot of 2020-03-10 (ms timestamp). -/
def sM1 : Snap :=
  { snap0 with timeStamp := 1583798400000, sales := 10, revenue := 100, players := 5 }

/-- Snapshot of 2020-03-11, the same month, with a later timestamp. -/
def sM2 : Snap :=
  { snap0 with timeStamp := 1583884800000, sales := 20, revenue := 150, players := 9 }

/-- A game whose history lists the later March snapshot first. -/
def gM : Game := { game0 with history := [sM2, sM1] }

/-- The entry get_history_for_game emits for 2020-03 of gM. -/
def eM : HistEntry :=
  { sales_inc := 20, revenue_inc := 150, cumul_sales := 20, cumul_revenue := 150,
    ccu := 9, score := 0, playtime := 0, price := 0, followers := 0,
    wishlists := 0, reviews := 0 }

/-- The 1970 entry of the decreasing history. -/
def eY70 : IncEntry :=
  { sales := 10, revenue := 100, cumulative_sales := 10, cumulative_revenue := 100,
    score := 0 }

/-- The 1971 entry of the decreasing history: the sales increment is
clamped to 0. -/
def eY71 : IncEntry :=
  { sales := 0, revenue := 20, cumulative_sales := 4, cumulative_revenue := 120,
    score := 0 }

/-- The 1970 trend entry of [gT]. -/
def tY70 : TrendEntry := { revenue := 100, sales := 10, game_count := 1, avg_score := 0 }

/-- A 2020 snapshot reporting zero sales and revenue. -/
def s2020z : Snap := { snap0 with timeStamp := 1583798400000, sales := 0, revenue := 0 }

/-- A game whose only snapshot reports zero cumulative sales in 2020. -/
def gAggZ : Game := { game0 with history := [s2020z] }

/-- An out-of-window snapshot (1970) with large cumulative values. -/
def sPre : Snap := { snap0 with timeStamp := 1000, sales := 999, revenue := 999 }

/-- An in-window snapshot of 2020. -/
def s2020 : Snap := { snap0 with timeStamp := 1583798400000, sales := 50, revenue := 500 }

/-- A game with one pre-window and one in-window snapshot. -/
def gW : Game := { game0 with history := [sPre, s2020] }

/-- The 2020 aggregate entry of [gW] under the default window. -/
def eW : AggEntry :=
  { sales_inc := 50, revenue_inc := 500, avg_ccu := 0, max_ccu := 0, total_ccu := 0,
    avg_score := 0, avg_playtime := 0, avg_price := 0, avg_followers := 0,
    avg_wishlists := 0, total_games := 1 }

/-- The 2020 aggregate entry of [gAggZ]: one contributing record with a
zero increment and no positive scores. -/
def eZ : AggEntry :=
  { sales_inc := 0, revenue_inc := 0, avg_ccu := 0, max_ccu := 0, total_ccu := 0,
    avg_score := 0, avg_playtime := 0, avg_price := 0, avg_followers := 0,
    avg_wishlists := 0, total_games := 1 }

/-- Record A of the weighted-country example: revenue 100, us share 50. -/
def gA : Game := { game0 with revenue := 100, countryData := [("us", 50)] }

/-- Record B of the weighted-country example: revenue 300, us share 70. -/
def gB : Game := { game0 with revenue := 300, countryData := [("us", 70)] }

/-- A zero-revenue record (weight falls back to 1) with us share 1. -/
def gC1 : Game := { game0 with countryData := [("us", 1)] }

/-- A zero-revenue record with de share 1. -/
def gC2 : Game := { game0 with countryData := [("de", 1)] }

/-- First overlap edge to the external target, link 0.2. -/
def edge1 : OverlapEdge :=
  { steamId := "ext", name := "External", link := 2/10, genres := ["RPG"],
    copiesSold := 2000000, revenue := 5000000, players := 1000 }

/-- Second overlap edge to the same target from another record, link 0.4. -/
def edge2 : OverlapEdge :=
  { steamId := "ext", name := "External2", link := 4/10, genres := ["RPG"],
    copiesSold := 1500000, revenue := 6000000, players := 900 }

/-- A game referencing the external target with link 0.2. -/
def gO1 : Game := { game0 with audienceOverlap := [edge1] }

/-- A game referencing the external target with link 0.4. -/
def gO2 : Game := { game0 with audienceOverlap := [edge2] }

/-- The ranking entry of the external target over [gO1, gO2]. -/
def eExt : OverTop :=
  { steamId := "ext", name := "External", overlap_game_count := 2, overlap_pct := 100,
    avg_link := 3/10, copies_sold := 2000000, revenue := 6000000, ccu := 1000,
    reach_score := 600000, genres := ["RPG"] }

/-- A record with a given concurrent-player count and nothing else. -/
def gP (q : ℚ) : Game := { game0 with players := q }

/-- A record in genre rpg and tag indie with a given review score. -/
def gSc (s : Nat) : Game :=
  { game0 with
    genres := ["rpg"], tags := ["indie"], reviewScore := s,
    revenue := 10, copiesSold := 5 }

/-- The rpg group statistics over scores [0, 80, 90]. -/
def stRpg : CatStats :=
  { game_count := 3, avg_revenue := 10, avg_sales := 5, avg_score := 85,
    total_revenue := 30 }

lemma perm_sortTs (l : List Snap) : List.Perm (sortTs l) l :=
  List.perm_insertionSort tsLe l

lemma mem_sortTs {s : Snap} {l : List Snap} : s ∈ sortTs l ↔ s ∈ l :=
  (perm_sortTs l).mem_iff

lemma sorted_sortTs (l : List Snap) : List.Sorted tsLe (sortTs l) :=
  List.sorted_insertionSort tsLe l

lemma mem_sortDescBy {α β : Type} [LinearOrder β] (key : α → β) {x : α} {l : List α} :
    x ∈ sortDescBy key l ↔ x ∈ l :=
  (List.perm_insertionSort (descRel key) l).mem_iff

lemma mem_sortAscNat {x : Nat} {l : List Nat} : x ∈ sortAscNat l ↔ x ∈ l :=
  (List.perm_insertionSort (· ≤ ·) l).mem_iff

lemma nodup_sortAscNat {l : List Nat} (h : l.Nodup) : (sortAscNat l).Nodup :=
  (List.perm_insertionSort (· ≤ ·) l).nodup_iff.mpr h

lemma mem_firstDedup {α : Type} [DecidableEq α] {x : α} {l : List α} :
    x ∈ firstDedup l ↔ x ∈ l := by
  simp [firstDedup, List.mem_dedup]

lemma nodup_firstDedup {α : Type} [DecidableEq α] (l : List α) : (firstDedup l).Nodup := by
  simpa [firstDedup] using (List.nodup_dedup l.reverse)

lemma orderedInsert_of_forall_le {x : Snap} {m : List Snap}
    (h : ∀ y ∈ m, tsLe x y) : List.orderedInsert tsLe x m = x :: m := by
  cases m with
  | nil => rfl
  | cons z t =>
    have hz : tsLe x z := h z (List.mem_cons_self z t)
    simp [List.orderedInsert, hz]

lemma filter_orderedInsert (P : Snap → Bool) (x : Snap) :
    ∀ m : List Snap, List.Sorted tsLe m →
      (List.orderedInsert tsLe x m).filter P =
        if P x then List.orderedInsert tsLe x (m.filter P) else m.filter P := by
  intro m
  induction m with
  | nil =>
    intro _
    by_cases hPx : P x = true <;> simp [List.orderedInsert, hPx]
  | cons z t ih =>
    intro hs
    rw [List.sorted_cons] at hs
    obtain ⟨hz, ht⟩ := hs
    by_cases hxz : tsLe x z
    · rw [List.orderedInsert_of_le tsLe t hxz]
      by_cases hPx : P x = true
      · have hall : ∀ y ∈ (z :: t).filter P, tsLe x y := by
          intro y hy
          have hy2 : y ∈ z :: t := List.mem_of_mem_filter hy
          rcases List.mem_cons.mp hy2 with h1 | h2
          · exact h1 ▸ hxz
          · exact Trans.trans hxz (hz y h2)
        rw [orderedInsert_of_forall_le hall]
        simp [hPx]
      · have hPx2 : P x = false := Bool.eq_false_iff.mpr hPx
        simp [hPx2]
    · have hstep : List.orderedInsert tsLe x (z :: t) = z :: List.orderedInsert tsLe x t := by
        simp [List.orderedInsert, hxz]
      rw [hstep]
      by_cases hPz : P z = true
      · by_cases hPx : P x = true
        · rw [List.filter_cons_of_pos hPz, ih ht, if_pos hPx, if_pos hPx,
            List.filter_cons_of_pos hPz]
          simp [List.orderedInsert, hxz]
        · have hPx2 : P x = false := Bool.eq_false_iff.mpr hPx
          rw [List.filter_cons_of_pos hPz, ih ht]
          simp [hPx2, List.filter_cons, hPz]
      · have hPz2 : P z = false := Bool.eq_false_iff.mpr hPz
        by_cases hPx : P x = true
        · rw [List.filter_cons_of_neg (by simp [hPz2]), ih ht]
          simp [hPx, List.filter_cons, hPz2]
        · have hPx2 : P x = false := Bool.eq_false_iff.mpr hPx
          rw [List.filter_cons_of_neg (by simp [hPz2]), ih ht]
          simp [hPx2, List.filter_cons, hPz2]

lemma filter_sortTs (P : Snap → Bool) (l : List Snap) :
    sortTs (l.filter P) = (sortTs l).filter P := by
  induction l with
  | nil => rfl
  | cons x t ih =>
    by_cases hPx : P x = true
    · have lhs : sortTs ((x :: t).filter P) =
          List.orderedInsert tsLe x (sortTs (t.filter P)) := by
        rw [List.filter_cons_of_pos hPx]
        rfl
      rw [lhs, ih]
      have := filter_orderedInsert P x (sortTs t) (sorted_sortTs t)
      rw [show sortTs (x :: t) = List.orderedInsert tsLe x (sortTs t) from rfl]
      rw [this, if_pos hPx]
    · have hPx2 : P x = false := Bool.eq_false_iff.mpr hPx
      have lhs : sortTs ((x :: t).filter P) = sortTs (t.filter P) := by
        rw [List.filter_cons_of_neg (by simp [hPx2])]
      rw [lhs, ih]
      have := filter_orderedInsert P x (sortTs t) (sorted_sortTs t)
      rw [show sortTs (x :: t) = List.orderedInsert tsLe x (sortTs t) from rfl]
      rw [this, if_neg (by simp [hPx2])]

lemma lastSat_eq_some {q : Snap → Bool} :
    ∀ {l : List Snap} {s : Snap}, lastSat q l = some s → s ∈ l ∧ q s = true := by
  intro l
  induction l with
  | nil => intro s h; simp [lastSat] at h
  | cons x t ih =>
    intro s h
    rw [lastSat] at h
    cases hx : lastSat q t with
    | some s2 =>
      rw [hx] at h
      obtain ⟨hmem, hq⟩ := ih hx
      obtain rfl := Option.some.inj h
      exact ⟨List.mem_cons_of_mem x hmem, hq⟩
    | none =>
      rw [hx] at h
      by_cases hqx : q x = true
      · rw [if_pos hqx] at h
        obtain rfl := Option.some.inj h
        exact ⟨List.mem_cons_self _ _, hqx⟩
      · rw [if_neg hqx] at h
        cases h

lemma lastSat_eq_none {q : Snap → Bool} :
    ∀ {l : List Snap}, lastSat q l = none → ∀ z ∈ l, q z = false := by
  intro l
  induction l with
  | nil => intro _ z hz; simp at hz
  | cons x t ih =>
    intro h z hz
    rw [lastSat] at h
    cases hx : lastSat q t with
    | some s2 => rw [hx] at h; cases h
    | none =>
      rw [hx] at h
      rcases List.mem_cons.mp hz with h1 | h2
      · subst h1
        by_cases hqx : q z = true
        · rw [if_pos hqx] at h; cases h
        · exact Bool.eq_false_iff.mpr hqx
      · exact ih hx z h2

lemma lastSat_isSome_of_mem {q : Snap → Bool} {l : List Snap} {z : Snap}
    (hz : z ∈ l) (hq : q z = true) : ∃ s, lastSat q l = some s := by
  cases hs : lastSat q l with
  | some s => exact ⟨s, rfl⟩
  | none => exact absurd hq (by simp [lastSat_eq_none hs z hz])

lemma lastSat_max {q : Snap → Bool} :
    ∀ {l : List Snap} {s : Snap}, List.Sorted tsLe l → lastSat q l = some s →
      ∀ z ∈ l, q z = true → z.timeStamp ≤ s.timeStamp := by
  intro l
  induction l with
  | nil => intro s _ h; simp [lastSat] at h
  | cons x t ih =>
    intro s hs h z hz hqz
    rw [List.sorted_cons] at hs
    obtain ⟨hx_le, ht⟩ := hs
    rw [lastSat] at h
    cases hlast : lastSat q t with
    | some s2 =>
      rw [hlast] at h
      obtain rfl := Option.some.inj h
      rcases List.mem_cons.mp hz with h1 | h2
      · subst h1
        exact hx_le _ (lastSat_eq_some hlast).1
      · exact ih ht hlast z h2 hqz
    | none =>
      rw [hlast] at h
      by_cases hqx : q x = true
      · rw [if_pos hqx] at h
        obtain rfl := Option.some.inj h
        rcases List.mem_cons.mp hz with h1 | h2
        · subst h1; exact Nat.le_refl _
        · exact absurd hqz (by simp [lastSat_eq_none hlast z h2])
      · rw [if_neg hqx] at h
        cases h

lemma lastSat_filter {q P : Snap → Bool} (himp : ∀ z, q z = true → P z = true) :
    ∀ l : List Snap, lastSat q (l.filter P) = lastSat q l := by
  intro l
  induction l with
  | nil => rfl
  | cons x t ih =>
    by_cases hPx : P x = true
    · rw [List.filter_cons_of_pos hPx]
      rw [lastSat, lastSat, ih]
    · have hqx : q x = false := by
        by_cases hq : q x = true
        · exact absurd (himp x hq) hPx
        · exact Bool.eq_false_iff.mpr hq
      rw [List.filter_cons_of_neg (by simp [Bool.eq_false_iff.mpr hPx]), ih]
      rw [lastSat]
      cases hlast : lastSat q t with
      | some s2 => rfl
      | none => simp [hqx]

lemma mem_walkPrev :
    ∀ {l : List (Nat × Snap)} {a b : Int} {w : (Nat × Snap) × Int × Int},
      w ∈ walkPrev l a b → w.1 ∈ l := by
  intro l
  induction l with
  | nil => intro a b w h; simp [walkPrev] at h
  | cons pi rest ih =>
    intro a b w h
    obtain ⟨p, it⟩ := pi
    rw [walkPrev] at h
    rcases List.mem_cons.mp h with h1 | h2
    · subst h1; exact List.mem_cons_self _ _
    · exact List.mem_cons_of_mem _ (ih h2)

lemma map_fst_walkPrev :
    ∀ (l : List (Nat × Snap)) (a b : Int),
      (walkPrev l a b).map (fun w => w.1.1) = l.map (fun pi => pi.1) := by
  intro l
  induction l with
  | nil => intro a b; rfl
  | cons pi rest ih =>
    intro a b
    obtain ⟨p, it⟩ := pi
    rw [walkPrev, List.map_cons, List.map_cons, ih]

lemma walkPrev_getElem?_zero {l : List (Nat × Snap)} {a b : Int}
    {w : (Nat × Snap) × Int × Int} (h : (walkPrev l a b)[0]? = some w) :
    w.2.1 = a ∧ w.2.2 = b := by
  cases l with
  | nil => simp [walkPrev] at h
  | cons pi rest =>
    obtain ⟨p, it⟩ := pi
    rw [walkPrev] at h
    simp at h
    subst h
    exact ⟨rfl, rfl⟩

lemma walkPrev_getElem?_adj :
    ∀ {l : List (Nat × Snap)} {a b : Int} {i : Nat}
      {w1 w2 : (Nat × Snap) × Int × Int},
      (walkPrev l a b)[i]? = some w1 → (walkPrev l a b)[i + 1]? = some w2 →
      w2.2.1 = w1.1.2.sales ∧ w2.2.2 = w1.1.2.revenue := by
  intro l
  induction l with
  | nil => intro a b i w1 w2 h1 _; simp [walkPrev] at h1
  | cons pi rest ih =>
    intro a b i w1 w2 h1 h2
    obtain ⟨p, it⟩ := pi
    rw [walkPrev] at h1 h2
    cases i with
    | zero =>
      simp at h1
      subst h1
      have h2t : (walkPrev rest it.sales it.revenue)[0]? = some w2 := by
        simpa using h2
      exact ⟨(walkPrev_getElem?_zero h2t).1, (walkPrev_getElem?_zero h2t).2⟩
    | succ n =>
      have h1t : (walkPrev rest it.sales it.revenue)[n]? = some w1 := by
        simpa using h1
      have h2t : (walkPrev rest it.sales it.revenue)[n + 1]? = some w2 := by
        simpa using h2
      exact ih h1t h2t

lemma mem_periodItems {u : Snap → Bool} {k : Snap → Nat} {l : List Snap}
    {p : Nat} {s : Snap} (h : (p, s) ∈ periodItems u k l) :
    byPeriod u k l p = some s ∧ p ∈ periodKeys u k l := by
  rw [periodItems] at h
  obtain ⟨a, ha, hmap⟩ := List.mem_filterMap.mp h
  cases hb : byPeriod u k l a with
  | none => rw [hb] at hmap; cases hmap
  | some s0 =>
    rw [hb] at hmap
    simp at hmap
    obtain ⟨hap, hs0⟩ := hmap
    subst hap
    subst hs0
    exact ⟨hb, ha⟩

lemma mem_periodKeys {u : Snap → Bool} {k : Snap → Nat} {l : List Snap} {p : Nat} :
    p ∈ periodKeys u k l ↔ ∃ s ∈ l, u s = true ∧ k s = p := by
  rw [periodKeys]
  rw [mem_sortAscNat, mem_firstDedup]
  constructor
  · intro h
    obtain ⟨s, hs, hks⟩ := List.mem_map.mp h
    exact ⟨s, List.mem_of_mem_filter hs, List.of_mem_filter hs, hks⟩
  · intro ⟨s, hs, hu, hks⟩
    exact List.mem_map.mpr ⟨s, List.mem_filter.mpr ⟨hs, hu⟩, hks⟩

lemma map_fst_periodItems_sublist (u : Snap → Bool) (k : Snap → Nat) (l : List Snap) :
    ((periodItems u k l).map (fun pi => pi.1)).Sublist (periodKeys u k l) := by
  rw [periodItems]
  generalize periodKeys u k l = ks
  induction ks with
  | nil => simp
  | cons p ps ih =>
    rw [List.filterMap_cons]
    cases hb : byPeriod u k l p with
    | none => exact List.Sublist.cons p ih
    | some s => simpa using List.Sublist.cons₂ p ih

lemma nodup_periodKeys (u : Snap → Bool) (k : Snap → Nat) (l : List Snap) :
    (periodKeys u k l).Nodup :=
  nodup_sortAscNat (nodup_firstDedup _)

lemma nodup_fst_periodItems (u : Snap → Bool) (k : Snap → Nat) (l : List Snap) :
    ((periodItems u k l).map (fun pi => pi.1)).Nodup :=
  (nodup_periodKeys u k l).sublist (map_fst_periodItems_sublist u k l)

lemma sum_ite_one {α : Type} (p : α → Bool) (l : List α) :
    (l.map (fun a => if p a then (1 : Nat) else 0)).sum = (l.filter p).length := by
  induction l with
  | nil => rfl
  | cons x t ih =>
    rw [List.map_cons, List.sum_cons, List.filter_cons]
    by_cases hx : p x = true
    · rw [if_pos hx, if_pos hx, ih, List.length_cons]
      omega
    · rw [if_neg hx, if_neg hx, ih]
      omega

lemma filter_keys_nil {α β : Type} [BEq α] [LawfulBEq α] :
    ∀ {l : List (α × β)} {y : α}, y ∉ l.map Prod.fst →
      l.filter (fun kv => kv.1 == y) = [] := by
  intro l
  induction l with
  | nil => intro y _; rfl
  | cons kv t ih =>
    intro y h
    rw [List.map_cons] at h
    simp only [List.mem_cons] at h
    push_neg at h
    obtain ⟨h1, h2⟩ := h
    rw [List.filter_cons_of_neg (by simpa using Ne.symm h1), ih h2]

lemma filter_eq_find?_toList {α β : Type} [BEq α] [LawfulBEq α] :
    ∀ {l : List (α × β)} {y : α}, (l.map Prod.fst).Nodup →
      l.filter (fun kv => kv.1 == y) = (l.find? (fun kv => kv.1 == y)).toList := by
  intro l
  induction l with
  | nil => intro y _; rfl
  | cons kv t ih =>
    intro y hnd
    rw [List.map_cons, List.nodup_cons] at hnd
    obtain ⟨hhd, hnd2⟩ := hnd
    by_cases hk : kv.1 = y
    · subst hk
      rw [List.filter_cons_of_pos (by simp), List.find?_cons_of_pos _ (by simp)]
      rw [filter_keys_nil hhd]
      rfl
    · rw [List.filter_cons_of_neg (by simp [hk]), List.find?_cons_of_neg _ (by simp [hk])]
      exact ih hnd2

lemma length_filter_key_of_nodup {α β : Type} [BEq α] [LawfulBEq α]
    {l : List (α × β)} {y : α} (h : (l.map Prod.fst).Nodup) :
    (l.filter (fun kv => kv.1 == y)).length =
      if (l.find? (fun kv => kv.1 == y)).isSome then 1 else 0 := by
  rw [filter_eq_find?_toList h]
  cases l.find? (fun kv => kv.1 == y) <;> rfl

lemma find?_eq_of_mem_nodup {α β : Type} [BEq α] [LawfulBEq α] :
    ∀ {l : List (α × β)} {k : α} {v : β}, (k, v) ∈ l → (l.map Prod.fst).Nodup →
      l.find? (fun kv => kv.1 == k) = some (k, v) := by
  intro l
  induction l with
  | nil => intro k v h _; cases h
  | cons kv t ih =>
    intro k v h hnd
    rw [List.map_cons, List.nodup_cons] at hnd
    obtain ⟨hhd, hnd2⟩ := hnd
    rcases List.mem_cons.mp h with h1 | h2
    · subst h1
      exact List.find?_cons_of_pos _ (by simp)
    · have hk : kv.1 ≠ k := by
        intro he
        exact hhd (he ▸ (List.mem_map.mpr ⟨(k, v), h2, rfl⟩))
      rw [List.find?_cons_of_neg _ (by simp [hk])]
      exact ih h2 hnd2

lemma length_filter_flatten {α β : Type} (f : α → List β) (p : β → Bool) :
    ∀ gs : List α,
      (((gs.map f).flatten).filter p).length =
        (gs.map (fun g => ((f g).filter p).length)).sum := by
  intro gs
  induction gs with
  | nil => rfl
  | cons g rest ih =>
    rw [List.map_cons, List.flatten_cons, List.filter_append, List.length_append,
      List.map_cons, List.sum_cons, ih]

lemma nodup_fst_yearly (h : List Snap) :
    ((get_yearly_increments h).map Prod.fst).Nodup := by
  rw [get_yearly_increments, List.map_map]
  have he : (Prod.fst ∘ fun w : (Nat × Snap) × Int × Int =>
      (w.1.1, mkIncEntry w.1.2 w.2.1 w.2.2)) = fun w => w.1.1 := rfl
  rw [he, map_fst_walkPrev]
  exact nodup_fst_periodItems _ _ _

lemma nodup_fst_aggContribs (freq : String) (year_min year_max : Nat) (g : Game) :
    ((aggContribs freq year_min year_max g).map Prod.fst).Nodup := by
  rw [aggContribs, List.map_map]
  have he : (Prod.fst ∘ fun w : (Nat × Snap) × Int × Int =>
      (w.1.1, mkAggContrib w.1.2 w.2.1 w.2.2)) = fun w => w.1.1 := rfl
  rw [he, map_fst_walkPrev]
  exact nodup_fst_periodItems _ _ _

lemma aggBucket_cons (freq : String) (year_min year_max : Nat) (g : Game)
    (gs : List Game) (p : Nat) :
    aggBucket (g :: gs) freq year_min year_max p =
      (((aggContribs freq year_min year_max g).filter (fun c => c.1 == p)).map
        (fun c => c.2)) ++ aggBucket gs freq year_min year_max p := by
  rw [aggBucket, aggBucket, allAggContribs, allAggContribs, List.map_cons,
    List.flatten_cons, List.filter_append, List.map_append]

lemma aggBucket_pos_scores (freq : String) (year_min year_max : Nat) (p : Nat) :
    ∀ games : List Game,
      ((aggBucket games freq year_min year_max p).map (fun c => c.score)).filter
          (fun x => decide (0 < x)) =
        aggPosScoresAt games freq year_min year_max p := by
  intro games
  induction games with
  | nil => rfl
  | cons g gs ih =>
    rw [aggPosScoresAt, List.filterMap_cons]
    rw [aggBucket_cons, List.map_append, List.filter_append, ih]
    have hfold : List.filterMap
        (fun g2 => aggScoreContribAt freq year_min year_max g2 p) gs =
        aggPosScoresAt gs freq year_min year_max p := rfl
    cases hf : (aggContribs freq year_min year_max g).find? (fun c => c.1 == p) with
    | some c =>
      have hflt : (aggContribs freq year_min year_max g).filter (fun c => c.1 == p) =
          [c] := by
        rw [filter_eq_find?_toList (nodup_fst_aggContribs freq year_min year_max g), hf]
        rfl
      have hcg : aggScoreContribAt freq year_min year_max g p =
          if 0 < c.2.score then some c.2.score else none := by
        simp only [aggScoreContribAt, hf]
      rw [hflt, hcg]
      by_cases hsc : (0 : ℚ) < c.2.score
      · rw [if_pos hsc]
        simp [hsc, hfold]
      · rw [if_neg hsc]
        simp [hsc, hfold]
    | none =>
      have hflt : (aggContribs freq year_min year_max g).filter (fun c => c.1 == p) =
          [] := by
        rw [filter_eq_find?_toList (nodup_fst_aggContribs freq year_min year_max g), hf]
        rfl
      have hcg : aggScoreContribAt freq year_min year_max g p = none := by
        simp only [aggScoreContribAt, hf]
      rw [hflt, hcg]
      simp [hfold]

lemma trendStepEntries_not_mem :
    ∀ {es : List (Nat × IncEntry)} {acc : Nat → TrendAcc} {y : Nat},
      y ∉ es.map Prod.fst → trendStepEntries es acc y = acc y := by
  intro es
  induction es with
  | nil => intro acc y _; rfl
  | cons e rest ih =>
    intro acc y h
    obtain ⟨yr, d⟩ := e
    rw [List.map_cons] at h
    simp only [List.mem_cons] at h
    push_neg at h
    obtain ⟨h1, h2⟩ := h
    rw [trendStepEntries, ih h2]
    simp [h1]

lemma trendStepEntries_char :
    ∀ {es : List (Nat × IncEntry)} {acc : Nat → TrendAcc} {y : Nat},
      (es.map Prod.fst).Nodup →
      trendStepEntries es acc y =
        ((es.find? (fun pe => pe.1 == y)).map
          (fun pe => trendAdd (acc y) pe.2)).getD (acc y) := by
  intro es
  induction es with
  | nil => intro acc y _; rfl
  | cons e rest ih =>
    intro acc y hnd
    obtain ⟨yr, d⟩ := e
    rw [List.map_cons, List.nodup_cons] at hnd
    obtain ⟨h0, hnd2⟩ := hnd
    rw [trendStepEntries]
    by_cases hk : yr = y
    · subst hk
      rw [trendStepEntries_not_mem h0]
      rw [List.find?_cons_of_pos _ (by simp)]
      simp
    · rw [ih hnd2]
      rw [List.find?_cons_of_neg _ (by simp [hk])]
      simp [Ne.symm hk]

lemma trendFold_game_count :
    ∀ (gs : List Game) (acc : Nat → TrendAcc) (y : Nat),
      (trendFold gs acc y).game_count =
        (acc y).game_count +
          (gs.filter (fun g => decide ((0 : Int) < salesIncAt g y))).length := by
  intro gs
  induction gs with
  | nil => intro acc y; simp [trendFold]
  | cons g rest ih =>
    intro acc y
    rw [trendFold, ih]
    have hchar := @trendStepEntries_char (get_yearly_increments g.history) acc y
      (nodup_fst_yearly _)
    rw [List.filter_cons]
    cases hf : (get_yearly_increments g.history).find? (fun pe => pe.1 == y) with
    | some pe =>
      rw [hf] at hchar
      rw [hchar]
      simp only [Option.map_some', Option.getD_some]
      by_cases hs : (0 : Int) < pe.2.sales
      · simp [trendAdd, salesIncAt, hf, hs]
        omega
      · simp [trendAdd, salesIncAt, hf, hs]
    | none =>
      rw [hf] at hchar
      rw [hchar]
      simp [salesIncAt, hf]

lemma trendFold_score_sum :
    ∀ (gs : List Game) (acc : Nat → TrendAcc) (y : Nat),
      (trendFold gs acc y).score_sum = (acc y).score_sum + (posScoresAt gs y).sum := by
  intro gs
  induction gs with
  | nil => intro acc y; simp [trendFold, posScoresAt]
  | cons g rest ih =>
    intro acc y
    rw [posScoresAt, List.filterMap_cons]
    rw [trendFold, ih]
    have hchar := @trendStepEntries_char (get_yearly_increments g.history) acc y
      (nodup_fst_yearly _)
    have hfold : List.filterMap (fun g => scoreContribAt g y) rest = posScoresAt rest y := rfl
    cases hf : (get_yearly_increments g.history).find? (fun pe => pe.1 == y) with
    | some pe =>
      rw [hf] at hchar
      rw [hchar]
      simp only [Option.map_some', Option.getD_some]
      have hcg : scoreContribAt g y = if 0 < pe.2.score then some pe.2.score else none := by
        simp only [scoreContribAt, hf]
      rw [hcg]
      by_cases hsc : (0 : ℚ) < pe.2.score
      · rw [if_pos hsc]
        simp only [trendAdd, if_pos hsc, List.sum_cons, hfold]
        ring
      · rw [if_neg hsc]
        simp only [trendAdd, if_neg hsc, hfold]
        ring
    | none =>
      rw [hf] at hchar
      rw [hchar]
      have hcg : scoreContribAt g y = none := by
        simp only [scoreContribAt, hf]
      rw [hcg]
      simp only [Option.map_none', Option.getD_none, hfold]

lemma trendFold_score_count :
    ∀ (gs : List Game) (acc : Nat → TrendAcc) (y : Nat),
      (trendFold gs acc y).score_count =
        (acc y).score_count + (posScoresAt gs y).length := by
  intro gs
  induction gs with
  | nil => intro acc y; simp [trendFold, posScoresAt]
  | cons g rest ih =>
    intro acc y
    rw [posScoresAt, List.filterMap_cons]
    rw [trendFold, ih]
    have hchar := @trendStepEntries_char (get_yearly_increments g.history) acc y
      (nodup_fst_yearly _)
    have hfold : List.filterMap (fun g => scoreContribAt g y) rest = posScoresAt rest y := rfl
    cases hf : (get_yearly_increments g.history).find? (fun pe => pe.1 == y) with
    | some pe =>
      rw [hf] at hchar
      rw [hchar]
      simp only [Option.map_some', Option.getD_some]
      have hcg : scoreContribAt g y = if 0 < pe.2.score then some pe.2.score else none := by
        simp only [scoreContribAt, hf]
      rw [hcg]
      by_cases hsc : (0 : ℚ) < pe.2.score
      · rw [if_pos hsc]
        simp only [trendAdd, if_pos hsc, List.length_cons, hfold]
        omega
      · rw [if_neg hsc]
        simp only [trendAdd, if_neg hsc, hfold]
        omega
    | none =>
      rw [hf] at hchar
      rw [hchar]
      have hcg : scoreContribAt g y = none := by
        simp only [scoreContribAt, hf]
      rw [hcg]
      simp only [Option.map_none', Option.getD_none, hfold]

lemma catStepKeys_not_mem (g : Game) :
    ∀ {ks : List String} {acc : String → CatAcc} {k : String},
      k ∉ ks → catStepKeys g ks acc k = acc k := by
  intro ks
  induction ks with
  | nil => intro acc k _; rfl
  | cons k0 rest ih =>
    intro acc k h
    simp only [List.mem_cons] at h
    push_neg at h
    obtain ⟨h1, h2⟩ := h
    rw [catStepKeys, ih h2]
    simp [h1]

lemma catStepKeys_char (g : Game) :
    ∀ {ks : List String} {acc : String → CatAcc} {k : String},
      ks.Nodup →
      catStepKeys g ks acc k = if k ∈ ks then catBump (acc k) g else acc k := by
  intro ks
  induction ks with
  | nil => intro acc k _; simp [catStepKeys]
  | cons k0 rest ih =>
    intro acc k hnd
    rw [List.nodup_cons] at hnd
    obtain ⟨h0, hnd2⟩ := hnd
    rw [catStepKeys]
    by_cases hk : k = k0
    · subst hk
      rw [catStepKeys_not_mem g h0]
      simp
    · rw [ih hnd2]
      by_cases hmem : k ∈ rest
      · simp [hmem, hk]
      · simp [hmem, hk]

lemma catFold_score_sum (proj : Game → List String) :
    ∀ (gs : List Game) (acc : String → CatAcc) (k : String),
      (∀ g ∈ gs, (proj g).Nodup) →
      (catFold proj gs acc k).score_sum =
        (acc k).score_sum +
          (((gs.filter (fun g => decide (k ∈ proj g))).filter
              (fun g => decide (0 < g.reviewScore))).map (fun g => g.reviewScore)).sum := by
  intro gs
  induction gs with
  | nil => intro acc k _; simp [catFold]
  | cons g rest ih =>
    intro acc k hnd
    rw [catFold, ih _ _ (fun g2 hg2 => hnd g2 (List.mem_cons_of_mem _ hg2))]
    rw [catStepKeys_char g (hnd g (List.mem_cons_self _ _))]
    rw [List.filter_cons]
    by_cases hmem : k ∈ proj g
    · rw [if_pos hmem, if_pos (by simpa using hmem)]
      rw [List.filter_cons]
      by_cases hsc : 0 < g.reviewScore
      · rw [if_pos (by simpa using hsc)]
        simp only [catBump, if_pos hsc, List.map_cons, List.sum_cons]
        omega
      · rw [if_neg (by simpa using hsc)]
        simp only [catBump, if_neg hsc]
        omega
    · rw [if_neg hmem, if_neg (by simpa using hmem)]

lemma catFold_score_count (proj : Game → List String) :
    ∀ (gs : List Game) (acc : String → CatAcc) (k : String),
      (∀ g ∈ gs, (proj g).Nodup) →
      (catFold proj gs acc k).score_count =
        (acc k).score_count +
          ((gs.filter (fun g => decide (k ∈ proj g))).filter
              (fun g => decide (0 < g.reviewScore))).length := by
  intro gs
  induction gs with
  | nil => intro acc k _; simp [catFold]
  | cons g rest ih =>
    intro acc k hnd
    rw [catFold, ih _ _ (fun g2 hg2 => hnd g2 (List.mem_cons_of_mem _ hg2))]
    rw [catStepKeys_char g (hnd g (List.mem_cons_self _ _))]
    rw [List.filter_cons]
    by_cases hmem : k ∈ proj g
    · rw [if_pos hmem, if_pos (by simpa using hmem)]
      rw [List.filter_cons]
      by_cases hsc : 0 < g.reviewScore
      · rw [if_pos (by simpa using hsc)]
        simp only [catBump, if_pos hsc, List.length_cons]
        omega
      · rw [if_neg (by simpa using hsc)]
        simp only [catBump, if_neg hsc]
        omega
    · rw [if_neg hmem, if_neg (by simpa using hmem)]

lemma lookupQ_nil (c : String) : lookupQ [] c = 0 := rfl

lemma lookupQ_cons_self {k : String} {v : ℚ} {t : List (String × ℚ)} :
    lookupQ ((k, v) :: t) k = v := by
  rw [lookupQ, List.find?_cons_of_pos _ (by simp)]
  rfl

lemma lookupQ_cons_ne {k c : String} {v : ℚ} {t : List (String × ℚ)} (h : c ≠ k) :
    lookupQ ((k, v) :: t) c = lookupQ t c := by
  rw [lookupQ, List.find?_cons_of_neg _ (by simp [Ne.symm h])]
  rfl

lemma lookupQ_bumpAssoc :
    ∀ (l : List (String × ℚ)) (c c2 : String) (d : ℚ),
      lookupQ (bumpAssoc l c d) c2 = lookupQ l c2 + (if c2 = c then d else 0) := by
  intro l
  induction l with
  | nil =>
    intro c c2 d
    show lookupQ [(c, d)] c2 = lookupQ [] c2 + _
    by_cases h : c2 = c
    · subst h
      rw [lookupQ_cons_self, if_pos rfl, lookupQ_nil]
      ring
    · rw [lookupQ_cons_ne h, if_neg h]
      ring
  | cons kv t ih =>
    intro c c2 d
    obtain ⟨k, v⟩ := kv
    by_cases hk : k = c
    · subst hk
      rw [show bumpAssoc ((k, v) :: t) k d = (k, v + d) :: t from by simp [bumpAssoc]]
      by_cases h2 : c2 = k
      · subst h2
        rw [lookupQ_cons_self, lookupQ_cons_self, if_pos rfl]
      · rw [lookupQ_cons_ne h2, lookupQ_cons_ne h2, if_neg h2]
        ring
    · rw [show bumpAssoc ((k, v) :: t) c d = (k, v) :: bumpAssoc t c d from by
        simp [bumpAssoc, hk]]
      by_cases h2 : c2 = k
      · subst h2
        rw [lookupQ_cons_self, lookupQ_cons_self, if_neg hk]
        ring
      · rw [lookupQ_cons_ne h2, lookupQ_cons_ne h2, ih]

lemma lookupQ_addCountryData (w : ℚ) :
    ∀ (cd : List (String × ℚ)) (acc : List (String × ℚ)) (c : String),
      lookupQ (addCountryData w acc cd) c =
        lookupQ acc c + ((cd.filter (fun kv => kv.1 == c)).map (fun kv => kv.2)).sum * w := by
  intro cd
  induction cd with
  | nil => intro acc c; simp [addCountryData]
  | cons e rest ih =>
    intro acc c
    obtain ⟨code, pct⟩ := e
    rw [addCountryData, ih, lookupQ_bumpAssoc, List.filter_cons]
    by_cases h : code = c
    · subst h
      rw [if_pos rfl, if_pos (by simp)]
      simp only [List.map_cons, List.sum_cons]
      ring
    · rw [if_neg (fun he => h he.symm), if_neg (by simp [h])]
      ring

lemma countryLoop_char (wb : String) :
    ∀ (gs : List Game) (wl : List (String × ℚ)) (tw : ℚ) (c : String),
      lookupQ (countryLoop wb gs (wl, tw)).1 c = lookupQ wl c + countryRawSum gs wb c ∧
        (countryLoop wb gs (wl, tw)).2 = tw + countryTotalWeight gs wb := by
  intro gs
  induction gs with
  | nil =>
    intro wl tw c
    simp [countryLoop, countryRawSum, countryTotalWeight]
  | cons g rest ih =>
    intro wl tw c
    rw [countryLoop]
    by_cases hcd : g.countryData = []
    · rw [if_pos hcd]
      obtain ⟨h1, h2⟩ := ih wl tw c
      refine ⟨?_, ?_⟩
      · rw [h1]
        have hr : countryRawSum (g :: rest) wb c = countryRawSum rest wb c := by
          rw [countryRawSum, countryRawSum, List.filter_cons, if_neg (by simp [hcd])]
        rw [hr]
      · rw [h2]
        have hr : countryTotalWeight (g :: rest) wb = countryTotalWeight rest wb := by
          rw [countryTotalWeight, countryTotalWeight, List.filter_cons,
            if_neg (by simp [hcd])]
        rw [hr]
    · rw [if_neg hcd]
      obtain ⟨h1, h2⟩ :=
        ih (addCountryData (weightOf wb g) wl g.countryData) (tw + weightOf wb g) c
      refine ⟨?_, ?_⟩
      · rw [h1, lookupQ_addCountryData]
        have hr : countryRawSum (g :: rest) wb c =
            ((g.countryData.filter (fun kv => kv.1 == c)).map (fun kv => kv.2)).sum
              * weightOf wb g + countryRawSum rest wb c := by
          rw [countryRawSum, countryRawSum, List.filter_cons, if_pos (by simp [hcd]),
            List.map_cons, List.sum_cons]
        rw [hr]
        ring
      · rw [h2]
        have hr : countryTotalWeight (g :: rest) wb =
            weightOf wb g + countryTotalWeight rest wb := by
          rw [countryTotalWeight, countryTotalWeight, List.filter_cons,
            if_pos (by simp [hcd]), List.map_cons, List.sum_cons]
        rw [hr]
        ring

lemma mem_keys_bumpAssoc :
    ∀ {l : List (String × ℚ)} {c x : String} {d : ℚ},
      x ∈ (bumpAssoc l c d).map Prod.fst ↔ x ∈ l.map Prod.fst ∨ x = c := by
  intro l
  induction l with
  | nil => intro c x d; simp [bumpAssoc]
  | cons kv t ih =>
    intro c x d
    obtain ⟨k, v⟩ := kv
    by_cases hk : k = c
    · subst hk
      rw [show bumpAssoc ((k, v) :: t) k d = (k, v + d) :: t from by simp [bumpAssoc]]
      simp only [List.map_cons, List.mem_cons]
      tauto
    · rw [show bumpAssoc ((k, v) :: t) c d = (k, v) :: bumpAssoc t c d from by
        simp [bumpAssoc, hk]]
      simp only [List.map_cons, List.mem_cons, ih]
      tauto

lemma nodup_keys_bumpAssoc :
    ∀ {l : List (String × ℚ)} {c : String} {d : ℚ},
      (l.map Prod.fst).Nodup → ((bumpAssoc l c d).map Prod.fst).Nodup := by
  intro l
  induction l with
  | nil => intro c d _; simp [bumpAssoc]
  | cons kv t ih =>
    intro c d hnd
    obtain ⟨k, v⟩ := kv
    rw [List.map_cons, List.nodup_cons] at hnd
    obtain ⟨h0, hnd2⟩ := hnd
    by_cases hk : k = c
    · subst hk
      rw [show bumpAssoc ((k, v) :: t) k d = (k, v + d) :: t from by simp [bumpAssoc]]
      rw [List.map_cons, List.nodup_cons]
      exact ⟨h0, hnd2⟩
    · rw [show bumpAssoc ((k, v) :: t) c d = (k, v) :: bumpAssoc t c d from by
        simp [bumpAssoc, hk]]
      rw [List.map_cons, List.nodup_cons]
      refine ⟨?_, ih hnd2⟩
      intro hmem
      rcases mem_keys_bumpAssoc.mp hmem with h1 | h2
      · exact h0 h1
      · exact hk h2

lemma nodup_keys_addCountryData (w : ℚ) :
    ∀ (cd : List (String × ℚ)) {acc : List (String × ℚ)},
      (acc.map Prod.fst).Nodup → ((addCountryData w acc cd).map Prod.fst).Nodup := by
  intro cd
  induction cd with
  | nil => intro acc h; exact h
  | cons e rest ih =>
    intro acc h
    obtain ⟨code, pct⟩ := e
    rw [addCountryData]
    exact ih (nodup_keys_bumpAssoc h)

lemma nodup_keys_countryLoop (wb : String) :
    ∀ (gs : List Game) {wl : List (String × ℚ)} {tw : ℚ},
      (wl.map Prod.fst).Nodup → (((countryLoop wb gs (wl, tw)).1).map Prod.fst).Nodup := by
  intro gs
  induction gs with
  | nil => intro wl tw h; exact h
  | cons g rest ih =>
    intro wl tw h
    rw [countryLoop]
    by_cases hcd : g.countryData = []
    · rw [if_pos hcd]
      exact ih h
    · rw [if_neg hcd]
      exact ih (nodup_keys_addCountryData _ _ h)


lemma snd_eq_lookupQ {l : List (String × ℚ)} {c : String} {v : ℚ}
    (hmem : (c, v) ∈ l) (hnd : (l.map Prod.fst).Nodup) : v = lookupQ l c := by
  rw [lookupQ, find?_eq_of_mem_nodup hmem hnd]
  rfl

/-- Claim C2: every period entry produced by the increment calculation
has nonnegative sales and revenue increments, in both
_get_yearly_increments and get_history_for_game, including when the
cumulative value reported for a period is smaller than the one reported
for the preceding period. -/
theorem c2_increments_nonneg :
    (∀ (history : List Snap) (p : Nat) (e : IncEntry),
        (p, e) ∈ get_yearly_increments history → 0 ≤ e.sales ∧ 0 ≤ e.revenue) ∧
    (∀ (g : Game) (freq : String) (p : Nat) (e : HistEntry),
        (p, e) ∈ get_history_for_game g freq →
          0 ≤ e.sales_inc ∧ 0 ≤ e.revenue_inc) := by
  constructor
  · intro history p e hmem
    rw [get_yearly_increments] at hmem
    obtain ⟨w, _, heq⟩ := List.mem_map.mp hmem
    have he : e = mkIncEntry w.1.2 w.2.1 w.2.2 := (congrArg Prod.snd heq).symm
    subst he
    exact ⟨le_max_left 0 _, le_max_left 0 _⟩
  · intro g freq p e hmem
    rw [get_history_for_game] at hmem
    obtain ⟨w, _, heq⟩ := List.mem_map.mp hmem
    have he : e = mkHistEntry w.1.2 w.2.1 w.2.2 := (congrArg Prod.snd heq).symm
    subst he
    exact ⟨le_max_left 0 _, le_max_left 0 _⟩

/-- Claim C2 witness: on the concrete history whose cumulative sales
drop from 10 to 4, the 1971 entry exists, its clamped increment is 0,
and both increments are nonnegative. -/
theorem c2_increments_nonneg_witness :
    ((1971, eY71) ∈ get_yearly_increments hDec) ∧
      (0 ≤ eY71.sales ∧ 0 ≤ eY71.revenue) :=
  ⟨by decide!,
   c2_increments_nonneg.1 hDec 1971 eY71 (by decide!)⟩

/-- Claim C3: walking the sorted period keys, the baseline used for each
period equals the raw cumulative values of the immediately preceding
output period (0 for the first period), never the sum of previously
emitted increments, and recomputing from the same history yields
identical results. -/
theorem c3_baseline_raw_cumulative (history : List Snap) :
    (∀ (p : Nat) (e : IncEntry),
        (get_yearly_increments history)[0]? = some (p, e) →
        e.sales = max 0 (e.cumulative_sales - 0) ∧
        e.revenue = max 0 (e.cumulative_revenue - 0)) ∧
    (∀ (i p1 p2 : Nat) (e1 e2 : IncEntry),
        (get_yearly_increments history)[i]? = some (p1, e1) →
        (get_yearly_increments history)[i + 1]? = some (p2, e2) →
        e2.sales = max 0 (e2.cumulative_sales - e1.cumulative_sales) ∧
        e2.revenue = max 0 (e2.cumulative_revenue - e1.cumulative_revenue)) ∧
    get_yearly_increments history = get_yearly_increments history := by
  refine ⟨?_, ?_, rfl⟩
  · intro p e h
    rw [get_yearly_increments, List.getElem?_map] at h
    cases hw : (walkPrev (periodItems hasTs (fun s => yearOfMs s.timeStamp) history)
        0 0)[0]? with
    | none => rw [hw] at h; cases h
    | some w =>
      rw [hw] at h
      simp only [Option.map_some'] at h
      obtain ⟨hz1, hz2⟩ := walkPrev_getElem?_zero hw
      have he : e = mkIncEntry w.1.2 w.2.1 w.2.2 := (congrArg Prod.snd (Option.some.inj h)).symm
      subst he
      rw [hz1, hz2]
      exact ⟨rfl, rfl⟩
  · intro i p1 p2 e1 e2 h1 h2
    rw [get_yearly_increments, List.getElem?_map] at h1 h2
    cases hw1 : (walkPrev (periodItems hasTs (fun s => yearOfMs s.timeStamp) history)
        0 0)[i]? with
    | none => rw [hw1] at h1; cases h1
    | some w1 =>
      cases hw2 : (walkPrev (periodItems hasTs (fun s => yearOfMs s.timeStamp) history)
          0 0)[i + 1]? with
      | none => rw [hw2] at h2; cases h2
      | some w2 =>
        rw [hw1] at h1
        rw [hw2] at h2
        simp only [Option.map_some'] at h1 h2
        obtain ⟨ha1, ha2⟩ := walkPrev_getElem?_adj hw1 hw2
        have he1 : e1 = mkIncEntry w1.1.2 w1.2.1 w1.2.2 :=
          (congrArg Prod.snd (Option.some.inj h1)).symm
        have he2 : e2 = mkIncEntry w2.1.2 w2.2.1 w2.2.2 :=
          (congrArg Prod.snd (Option.some.inj h2)).symm
        subst he1
        subst he2
        rw [ha1, ha2]
        exact ⟨rfl, rfl⟩

/-- Claim C3 witness: on the concrete two-year history the 1971 entry is
computed against the raw 1970 cumulative values (10 and 100), not
against accumulated increments. -/
theorem c3_baseline_raw_cumulative_witness :
    ((get_yearly_increments hDec)[0]? = some (1970, eY70)) ∧
    ((get_yearly_increments hDec)[1]? = some (1971, eY71)) ∧
    (eY71.sales = max 0 (eY71.cumulative_sales - eY70.cumulative_sales) ∧
      eY71.revenue = max 0 (eY71.cumulative_revenue - eY70.cumulative_revenue)) :=
  ⟨by decide!,
   by decide!,
   (c3_baseline_raw_cumulative hDec).2.1 0 1970 1971 eY70 eY71
     (by decide!) (by decide!)⟩

/-- Claim C1 counterexample: _get_yearly_increments does not sort its
input, so swapping two snapshots that share the 1970 period changes the
emitted entry for that period (the snapshot listed last wins, not the
one with the maximum timestamp). -/
theorem c1_reorder_counterexample :
    get_yearly_increments [sOld, sNew] ≠ get_yearly_increments [sNew, sOld] := by
  decide!

/-- Claim C1 amended: for get_history_for_game, which sorts the history
by timestamp before collapsing periods, every emitted period entry is
built from a snapshot of that period whose timestamp is maximal among
the periods usable snapshots, and the cumulative and point-in-time
fields are copied from that snapshot; _get_yearly_increments does not
sort, keeps the snapshot listed last within each period, and is
therefore only determined by the maximum timestamp on histories already
ordered by timestamp. -/
theorem c1_max_timestamp_winner (g : Game) (freq : String) (p : Nat) (e : HistEntry)
    (hmem : (p, e) ∈ get_history_for_game g freq) :
    ∃ s ∈ g.history, s.timeStamp ≠ 0 ∧ periodOf freq s.timeStamp = p ∧
      e.cumul_sales = s.sales ∧ e.cumul_revenue = s.revenue ∧
      e.ccu = s.players ∧ e.score = s.score ∧ e.playtime = s.avgPlaytime ∧
      e.price = s.price ∧ e.followers = s.followers ∧ e.wishlists = s.wishlists ∧
      e.reviews = s.reviews ∧
      ∀ s2 ∈ g.history, s2.timeStamp ≠ 0 → periodOf freq s2.timeStamp = p →
        s2.timeStamp ≤ s.timeStamp := by
  rw [get_history_for_game] at hmem
  obtain ⟨w, hw, heq⟩ := List.mem_map.mp hmem
  have hp : w.1.1 = p := congrArg Prod.fst heq
  subst hp
  have he : e = mkHistEntry w.1.2 w.2.1 w.2.2 := (congrArg Prod.snd heq).symm
  subst he
  have hwmem := mem_walkPrev hw
  have hpi : (w.1.1, w.1.2) ∈
      periodItems hasTs (fun s => periodOf freq s.timeStamp) (sortTs g.history) := by
    simpa using hwmem
  obtain ⟨hbp, _⟩ := mem_periodItems hpi
  rw [byPeriod] at hbp
  obtain ⟨hmem2, hq⟩ := lastSat_eq_some hbp
  rw [Bool.and_eq_true] at hq
  obtain ⟨hts, hkeq⟩ := hq
  refine ⟨w.1.2, mem_sortTs.mp hmem2, ?_, ?_, rfl, rfl, rfl, rfl, rfl, rfl, rfl, rfl, rfl, ?_⟩
  · simpa [hasTs] using hts
  · exact beq_iff_eq.mp hkeq
  · intro s2 hs2 hts2 hp2
    refine lastSat_max (sorted_sortTs g.history) hbp s2 (mem_sortTs.mpr hs2) ?_
    rw [Bool.and_eq_true]
    constructor
    · simpa [hasTs] using hts2
    · exact beq_iff_eq.mpr hp2

/-- Claim C1 amended witness: on a game whose history lists the later
2020-03 snapshot first, the emitted 2020-03 entry is built from the
maximum-timestamp snapshot of that month. -/
theorem c1_max_timestamp_winner_witness :
    ∃ s ∈ gM.history, s.timeStamp ≠ 0 ∧ periodOf ("monthly") s.timeStamp = 202003 ∧
      eM.cumul_sales = s.sales ∧ eM.cumul_revenue = s.revenue ∧
      eM.ccu = s.players ∧ eM.score = s.score ∧ eM.playtime = s.avgPlaytime ∧
      eM.price = s.price ∧ eM.followers = s.followers ∧ eM.wishlists = s.wishlists ∧
      eM.reviews = s.reviews ∧
      ∀ s2 ∈ gM.history, s2.timeStamp ≠ 0 → periodOf ("monthly") s2.timeStamp = 202003 →
        s2.timeStamp ≤ s.timeStamp :=
  c1_max_timestamp_winner gM ("monthly") 202003 eM (by decide!)

/-- Claim C4 counterexample: an out-of-range sort key and an out-of-range
granularity raise no error; get_audience_overlap_top silently returns
the reach_score ordering, and get_history_aggregate silently behaves as
monthly. -/
theorem c4_fallback_counterexample :
    get_audience_overlap_top [gO1, gO2] 30 ("bogus") =
      get_audience_overlap_top [gO1, gO2] 30 ("reach_score") ∧
    get_history_aggregate [gW] ("weekly") 2015 2026 =
      get_history_aggregate [gW] ("monthly") 2015 2026 := by
  constructor
  · have hkey : overlapSortKey ("bogus") = overlapSortKey ("reach_score") := by
      funext e
      rw [overlapSortKey, overlapSortKey]
      rw [if_neg (by decide), if_neg (by decide), if_neg (by decide), if_neg (by decide),
        if_pos rfl]
    rw [get_audience_overlap_top, get_audience_overlap_top, hkey]
  · have hp : periodOf ("weekly") = periodOf ("monthly") := by
      funext ts
      rw [periodOf, periodOf, if_neg (by decide), if_neg (by decide)]
    have hc : aggContribs ("weekly") 2015 2026 = aggContribs ("monthly") 2015 2026 := by
      funext g
      rw [aggContribs, aggContribs, hp]
    simp only [get_history_aggregate, aggBucket, allAggContribs, hc]

/-- Claim C4 amended: neither call boundary fails fast. Any sort key
outside the documented set makes the Overlap Ranker behave exactly as
the reach_score ordering, and any granularity other than yearly makes
the temporal aggregator behave exactly as monthly; no descriptive error
is produced. -/
theorem c4_silent_fallback :
    (∀ (games : List Game) (top_n : Nat) (sort_by : String),
        sort_by ≠ "reach_score" → sort_by ≠ "avg_link" →
        sort_by ≠ "overlap_game_count" → sort_by ≠ "copies_sold" →
        get_audience_overlap_top games top_n sort_by =
          get_audience_overlap_top games top_n ("reach_score")) ∧
    (∀ (games : List Game) (freq : String) (year_min year_max : Nat),
        freq ≠ "yearly" →
        get_history_aggregate games freq year_min year_max =
          get_history_aggregate games ("monthly") year_min year_max) := by
  constructor
  · intro games top_n sort_by h1 h2 h3 h4
    have hkey : overlapSortKey sort_by = overlapSortKey ("reach_score") := by
      funext e
      rw [overlapSortKey, overlapSortKey]
      rw [if_neg h1, if_neg h2, if_neg h3, if_neg h4, if_pos rfl]
    rw [get_audience_overlap_top, get_audience_overlap_top, hkey]
  · intro games freq year_min year_max h
    have hp : periodOf freq = periodOf ("monthly") := by
      funext ts
      rw [periodOf, periodOf, if_neg h, if_neg (by decide)]
    have hc : aggContribs freq year_min year_max =
        aggContribs ("monthly") year_min year_max := by
      funext g
      rw [aggContribs, aggContribs, hp]
    simp only [get_history_aggregate, aggBucket, allAggContribs, hc]

/-- Claim C4 amended witness: concrete out-of-range selectors produce
exactly the fallback outputs. -/
theorem c4_silent_fallback_witness :
    get_audience_overlap_top [gO1, gO2] 5 ("sales") =
      get_audience_overlap_top [gO1, gO2] 5 ("reach_score") ∧
    get_history_aggregate [gW] ("quarterly") 2015 2026 =
      get_history_aggregate [gW] ("monthly") 2015 2026 :=
  ⟨c4_silent_fallback.1 [gO1, gO2] 5 ("sales") (by decide) (by decide) (by decide)
      (by decide),
   c4_silent_fallback.2 [gW] ("quarterly") 2015 2026 (by decide)⟩

/-- Claim C7: for every target in the Overlap Ranker output, reach_score
equals the arithmetic mean of link over all surviving edges referencing
the target (each edge counted, not deduplicated by source) times the
maximum copiesSold observed across those edges, and the reported
copies_sold, revenue and ccu are maxima over those edges. -/
theorem c7_reach_score (games : List Game) (top_n : Nat) (sort_by : String)
    (e : OverTop) (hmem : e ∈ get_audience_overlap_top games top_n sort_by) :
    e.reach_score =
      ((overlapData games e.steamId).map (fun x => x.link)).sum /
          ((overlapData games e.steamId).length : ℚ) *
        maxQD ((overlapData games e.steamId).map (fun x => x.copiesSold)) ∧
    e.copies_sold = maxQD ((overlapData games e.steamId).map (fun x => x.copiesSold)) ∧
    e.revenue = maxQD ((overlapData games e.steamId).map (fun x => x.revenue)) ∧
    e.ccu = maxQD ((overlapData games e.steamId).map (fun x => x.players)) := by
  simp only [get_audience_overlap_top] at hmem
  have hmem2 := List.mem_of_mem_take hmem
  have hmem3 := (mem_sortDescBy (overlapSortKey sort_by)).mp hmem2
  obtain ⟨kv, _, heq⟩ := List.mem_map.mp hmem3
  obtain rfl := heq
  exact ⟨rfl, rfl, rfl, rfl⟩

/-- Claim C7 witness: the external target referenced twice with links
0.2 and 0.4 and maximum observed copiesSold 2000000 appears in the
output with reach_score avg(0.2, 0.4) * 2000000 = 600000. -/
theorem c7_reach_score_witness :
    (eExt ∈ get_audience_overlap_top [gO1, gO2] 30 ("reach_score")) ∧
    (eExt.reach_score =
        ((overlapData [gO1, gO2] eExt.steamId).map (fun x => x.link)).sum /
            ((overlapData [gO1, gO2] eExt.steamId).length : ℚ) *
          maxQD ((overlapData [gO1, gO2] eExt.steamId).map (fun x => x.copiesSold)) ∧
      eExt.copies_sold =
        maxQD ((overlapData [gO1, gO2] eExt.steamId).map (fun x => x.copiesSold)) ∧
      eExt.revenue =
        maxQD ((overlapData [gO1, gO2] eExt.steamId).map (fun x => x.revenue)) ∧
      eExt.ccu =
        maxQD ((overlapData [gO1, gO2] eExt.steamId).map (fun x => x.players))) ∧
    eExt.reach_score = 600000 :=
  ⟨by decide!,
   c7_reach_score [gO1, gO2] 30 ("reach_score") eExt (by decide!),
   by decide!⟩

/-- Claim C5 counterexample: a record whose only snapshot reports zero
cumulative sales yields a 2020 period whose bucket contains no
contribution with positive sales increment, yet get_history_aggregate
reports total_games = 1, so total_games does not count only records with
strictly positive salesInc. -/
theorem c5_total_games_counterexample :
    ((get_history_aggregate [gAggZ] ("yearly") 2015 2026).map
        (fun pe => (pe.1, pe.2.total_games, pe.2.sales_inc)) = [(2020, 1, 0)]) ∧
    ((aggBucket [gAggZ] ("yearly") 2015 2026 2020).filter
        (fun c => decide ((0 : Int) < c.sales_inc))).length = 0 := by
  constructor
  · decide!
  · decide!

/-- Claim C5 amended: in get_yearly_trends a periods game_count counts
exactly the records whose sales increment for the period is strictly
positive and avg_score is the arithmetic mean of the strictly positive
scores; in get_history_aggregate the scores are likewise averaged over
positive values only, but total_games counts every record that
contributes a snapshot to the period, regardless of the sign of its
increment. -/
theorem c5_counts_characterization :
    (∀ (games : List Game) (y : Nat) (t : TrendEntry),
        (y, t) ∈ get_yearly_trends games →
        t.game_count =
          (games.filter (fun g => decide ((0 : Int) < salesIncAt g y))).length ∧
        t.avg_score =
          (if (posScoresAt games y).length = 0 then 0
           else (posScoresAt games y).sum / ((posScoresAt games y).length : ℚ))) ∧
    (∀ (games : List Game) (freq : String) (year_min year_max p : Nat) (e : AggEntry),
        (p, e) ∈ get_history_aggregate games freq year_min year_max →
        e.total_games =
          (games.filter (fun g => hasPeriodContrib freq year_min year_max g p)).length ∧
        e.avg_score =
          (if (aggPosScoresAt games freq year_min year_max p).length = 0 then 0
           else (aggPosScoresAt games freq year_min year_max p).sum /
             ((aggPosScoresAt games freq year_min year_max p).length : ℚ))) := by
  constructor
  · intro games y t hmem
    simp only [get_yearly_trends] at hmem
    obtain ⟨y0, _, heq⟩ := List.mem_map.mp hmem
    have hy : y0 = y := congrArg Prod.fst heq
    subst hy
    have ht := (congrArg Prod.snd heq).symm
    subst ht
    constructor
    · show (trendFold games (fun _ => trendAcc0) y0).game_count = _
      rw [trendFold_game_count]
      simp [trendAcc0]
    · show (if (trendFold games (fun _ => trendAcc0) y0).score_count = 0 then 0
          else (trendFold games (fun _ => trendAcc0) y0).score_sum /
            ((trendFold games (fun _ => trendAcc0) y0).score_count : ℚ)) = _
      rw [trendFold_score_count, trendFold_score_sum]
      simp [trendAcc0]
  · intro games freq year_min year_max p e hmem
    simp only [get_history_aggregate] at hmem
    obtain ⟨p0, _, heq⟩ := List.mem_map.mp hmem
    have hpp : p0 = p := congrArg Prod.fst heq
    subst hpp
    have he := (congrArg Prod.snd heq).symm
    subst he
    constructor
    · show (aggBucket games freq year_min year_max p0).length = _
      rw [aggBucket, List.length_map, allAggContribs, length_filter_flatten]
      have hstep : ∀ g ∈ games,
          ((aggContribs freq year_min year_max g).filter (fun c => c.1 == p0)).length =
            if hasPeriodContrib freq year_min year_max g p0 then (1 : Nat) else 0 := by
        intro g _
        rw [length_filter_key_of_nodup (nodup_fst_aggContribs freq year_min year_max g)]
        rfl
      rw [List.map_congr_left hstep, sum_ite_one]
    · show avgPos ((aggBucket games freq year_min year_max p0).map
          (fun c => c.score)) = _
      simp only [avgPos]
      rw [aggBucket_pos_scores freq year_min year_max p0 games]

/-- Claim C5 amended witness: over the single decreasing-history game,
the 1970 trend entry counts one active record, and over the
zero-sales game the 2020 aggregate entry counts one contributing record
even though its increment is 0. -/
theorem c5_counts_characterization_witness :
    ((1970, tY70) ∈ get_yearly_trends [gT]) ∧
    (tY70.game_count =
        ([gT].filter (fun g => decide ((0 : Int) < salesIncAt g 1970))).length ∧
      tY70.avg_score =
        (if (posScoresAt [gT] 1970).length = 0 then 0
         else (posScoresAt [gT] 1970).sum / ((posScoresAt [gT] 1970).length : ℚ))) ∧
    (eZ.total_games =
        ([gAggZ].filter (fun g => hasPeriodContrib ("yearly") 2015 2026 g 2020)).length ∧
      eZ.avg_score =
        (if (aggPosScoresAt [gAggZ] ("yearly") 2015 2026 2020).length = 0 then 0
         else (aggPosScoresAt [gAggZ] ("yearly") 2015 2026 2020).sum /
           ((aggPosScoresAt [gAggZ] ("yearly") 2015 2026 2020).length : ℚ))) :=
  ⟨by decide!,
   c5_counts_characterization.1 [gT] 1970 tY70 (by decide!),
   c5_counts_characterization.2 [gAggZ] ("yearly") 2015 2026 2020 eZ (by decide!)⟩

/-- Claim C6 counterexample: with three equally weighted records the us
quotient is exactly 1/3, which is not representable in two decimals; the
emitted value is 0.33, so the final value is not the accumulated
share-times-weight sum divided by the total weight. -/
theorem c6_rounding_counterexample :
    countryRounded [gC1, gC2, gC2] ("revenue") = [("de", 67/100), ("us", 33/100)] ∧
    countryRawSum [gC1, gC2, gC2] ("revenue") ("us") /
        countryTotalWeight [gC1, gC2, gC2] ("revenue") = 1/3 ∧
    (33/100 : ℚ) ≠ 1/3 := by
  refine ⟨by decide!, by decide!, by decide!⟩

/-- Claim C6 amended: the weighted country rollup weights each record by
revenue (or copiesSold, or the constant 1), substituting 1 when the
chosen metric is zero or absent, accumulates share times weight over
exactly the records that supplied non-empty country data, and each
countrys final value is the accumulated sum divided by the total weight
of those records, rounded to two decimal places. -/
theorem c6_weighted_share (games : List Game) (weight_by : String) (c : String)
    (v : ℚ) (hmem : (c, v) ∈ countryRounded games weight_by) :
    v = roundTo 2
      (countryRawSum games weight_by c / countryTotalWeight games weight_by) := by
  rw [countryRounded] at hmem
  by_cases htw : (countryLoop weight_by games ([], 0)).2 = 0
  · rw [if_pos htw] at hmem
    cases hmem
  · rw [if_neg htw] at hmem
    obtain ⟨kv, hkv, heq⟩ := List.mem_map.mp hmem
    obtain ⟨k0, v0⟩ := kv
    have hc : k0 = c := congrArg Prod.fst heq
    subst hc
    have hv : v = roundTo 2 (v0 / (countryLoop weight_by games ([], 0)).2) :=
      (congrArg Prod.snd heq).symm
    have hkv2 : (k0, v0) ∈ (countryLoop weight_by games ([], 0)).1 :=
      (mem_sortDescBy (fun kv : String × ℚ => kv.2)).mp hkv
    have hnd : (((countryLoop weight_by games ([], 0)).1).map Prod.fst).Nodup :=
      nodup_keys_countryLoop weight_by games (by simp)
    have hval : v0 = lookupQ (countryLoop weight_by games ([], 0)).1 k0 :=
      snd_eq_lookupQ hkv2 hnd
    obtain ⟨hlk, htot⟩ := countryLoop_char weight_by games [] 0 k0
    rw [lookupQ_nil] at hlk
    rw [hv, hval, hlk, htot]
    rw [zero_add, zero_add]

/-- Claim C6 amended witness: records A (revenue 100, us 50) and B
(revenue 300, us 70) weighted by revenue yield us =
round((100*50 + 300*70) / 400, 2) = 65. -/
theorem c6_weighted_share_witness :
    (("us", (65 : ℚ)) ∈ countryRounded [gA, gB] ("revenue")) ∧
    (65 : ℚ) = roundTo 2 (countryRawSum [gA, gB] ("revenue") ("us") /
      countryTotalWeight [gA, gB] ("revenue")) ∧
    countryRawSum [gA, gB] ("revenue") ("us") /
      countryTotalWeight [gA, gB] ("revenue") = 65 :=
  ⟨by decide!,
   c6_weighted_share [gA, gB] ("revenue") ("us") 65 (by decide!),
   by decide!⟩

/-- Claim C8 counterexample: for a record list whose ccu observations
are all zero, the players_ccu struct carries no count field at all
(count is none, not 0), so the zero struct does not contain all five
fields. -/
theorem c8_missing_count_counterexample :
    (get_activity_summary [game0]).map (fun r => r.players_ccu.count) = some none := by
  decide!

/-- Claim C8 amended: _stats computes each summary over the strictly
positive observations only (zeros and absent values are excluded from
both numerator and denominator); with no positive observation it returns
the configured zero struct, which carries avg, max, median and total
equal to 0 but no count field, and never divides by zero;
get_activity_summary applies _stats to each metric column. -/
theorem c8_positive_stats :
    (∀ vals : List ℚ, statsQ vals = statsQ (vals.filter (fun x => decide (0 < x)))) ∧
    (∀ vals : List ℚ, vals.filter (fun x => decide (0 < x)) = [] →
        statsQ vals = { avg := 0, max := 0, median := 0, total := 0, count := none }) ∧
    (∀ games : List Game, games ≠ [] →
        (get_activity_summary games).map (fun r => r.players_ccu) =
          some (statsQ (games.map (fun g => g.players)))) := by
  refine ⟨?_, ?_, ?_⟩
  · intro vals
    simp only [statsQ, List.filter_filter, Bool.and_self]
  · intro vals h
    simp [statsQ, h]
  · intro games h
    simp [get_activity_summary, h]

/-- Claim C8 amended witness: ccu observations [0, 0, 100, 300] yield
avg 200, max 300, count 2 (zeros excluded), and an all-zero column
yields the four-field zero struct without a count. -/
theorem c8_positive_stats_witness :
    statsQ [0, 0] = { avg := 0, max := 0, median := 0, total := 0, count := none } ∧
    (get_activity_summary [gP 0, gP 0, gP 100, gP 300]).map (fun r => r.players_ccu) =
      some { avg := 200, max := 300, median := 300, total := 400, count := some 2 } :=
  ⟨c8_positive_stats.2.1 [0, 0] (by decide!),
   by decide!⟩

/-- Claim C9: in the genre and tag rollups avg_score is the sum of the
groups positive review scores divided by the number of group records
with positive score (zero-score records are excluded from the
denominator), and 0 when no group record has a positive score; stated
for records whose genre and tag lists are duplicate-free. -/
theorem c9_avg_score_nonzero_denominator :
    (∀ (games : List Game) (k : String) (st : CatStats),
        (∀ g ∈ games, g.genres.Nodup) →
        (k, st) ∈ get_genre_stats games →
        st.avg_score =
          (if (((games.filter (fun g => decide (k ∈ g.genres))).filter
                  (fun g => decide (0 < g.reviewScore))).length) = 0 then 0
           else ((((games.filter (fun g => decide (k ∈ g.genres))).filter
                  (fun g => decide (0 < g.reviewScore))).map
                    (fun g => g.reviewScore)).sum : ℚ) /
              ((((games.filter (fun g => decide (k ∈ g.genres))).filter
                  (fun g => decide (0 < g.reviewScore))).length : ℚ)))) ∧
    (∀ (games : List Game) (k : String) (st : CatStats),
        (∀ g ∈ games, g.tags.Nodup) →
        (k, st) ∈ get_tag_stats games →
        st.avg_score =
          (if (((games.filter (fun g => decide (k ∈ g.tags))).filter
                  (fun g => decide (0 < g.reviewScore))).length) = 0 then 0
           else ((((games.filter (fun g => decide (k ∈ g.tags))).filter
                  (fun g => decide (0 < g.reviewScore))).map
                    (fun g => g.reviewScore)).sum : ℚ) /
              ((((games.filter (fun g => decide (k ∈ g.tags))).filter
                  (fun g => decide (0 < g.reviewScore))).length : ℚ)))) := by
  constructor
  · intro games k st hnd hmem
    rw [get_genre_stats] at hmem
    obtain ⟨ka, hka, heq⟩ := List.mem_map.mp hmem
    obtain ⟨k0, hk0, hka2⟩ :=
      List.mem_map.mp ((mem_sortDescBy (fun ka : String × CatAcc => ka.2.revenue_sum)).mp hka)
    subst hka2
    have hkk : k0 = k := congrArg Prod.fst heq
    subst hkk
    have hst := (congrArg Prod.snd heq).symm
    subst hst
    show (if (catFold Game.genres games (fun _ => catAcc0) k0).score_count = 0 then 0
        else ((catFold Game.genres games (fun _ => catAcc0) k0).score_sum : ℚ) /
          ((catFold Game.genres games (fun _ => catAcc0) k0).score_count : ℚ)) = _
    rw [catFold_score_count Game.genres games (fun _ => catAcc0) k0 hnd,
      catFold_score_sum Game.genres games (fun _ => catAcc0) k0 hnd]
    simp [catAcc0, Function.comp]
    rfl
  · intro games k st hnd hmem
    rw [get_tag_stats] at hmem
    obtain ⟨ka, hka, heq⟩ := List.mem_map.mp hmem
    obtain ⟨k0, hk0, hka2⟩ :=
      List.mem_map.mp ((mem_sortDescBy (fun ka : String × CatAcc => ka.2.count)).mp hka)
    subst hka2
    have hkk : k0 = k := congrArg Prod.fst heq
    subst hkk
    have hst := (congrArg Prod.snd heq).symm
    subst hst
    show (if (catFold Game.tags games (fun _ => catAcc0) k0).score_count = 0 then 0
        else ((catFold Game.tags games (fun _ => catAcc0) k0).score_sum : ℚ) /
          ((catFold Game.tags games (fun _ => catAcc0) k0).score_count : ℚ)) = _
    rw [catFold_score_count Game.tags games (fun _ => catAcc0) k0 hnd,
      catFold_score_sum Game.tags games (fun _ => catAcc0) k0 hnd]
    simp [catAcc0, Function.comp]
    rfl

/-- Claim C9 witness: three rpg records with scores [0, 80, 90] have
avg_score (80 + 90) / 2 = 85, not 56.7. -/
theorem c9_avg_score_nonzero_denominator_witness :
    (("rpg", stRpg) ∈ get_genre_stats [gSc 0, gSc 80, gSc 90]) ∧
    stRpg.avg_score =
      (if ((([gSc 0, gSc 80, gSc 90].filter
              (fun g => decide ("rpg" ∈ g.genres))).filter
              (fun g => decide (0 < g.reviewScore))).length) = 0 then 0
       else (((([gSc 0, gSc 80, gSc 90].filter
              (fun g => decide ("rpg" ∈ g.genres))).filter
              (fun g => decide (0 < g.reviewScore))).map
                (fun g => g.reviewScore)).sum : ℚ) /
          (((([gSc 0, gSc 80, gSc 90].filter
              (fun g => decide ("rpg" ∈ g.genres))).filter
              (fun g => decide (0 < g.reviewScore))).length : ℚ))) ∧
    stRpg.avg_score = 85 :=
  ⟨by decide!,
   c9_avg_score_nonzero_denominator.1 [gSc 0, gSc 80, gSc 90] ("rpg") stRpg
     (by decide!) (by decide!),
   by decide!⟩

/-- History snapshots outside the year window satisfy the window
predicate used by dropOutOfWindow whenever they pass the usability
guard of get_history_aggregate. -/
lemma usable_imp_window (year_min year_max : Nat) (s : Snap)
    (h : usableInWindow year_min year_max s = true) :
    (decide (year_min ≤ yearOfMs s.timeStamp)
      && decide (yearOfMs s.timeStamp ≤ year_max)) = true := by
  rw [usableInWindow, Bool.and_eq_true, Bool.and_eq_true] at h
  rw [Bool.and_eq_true]
  exact ⟨h.1.2, h.2⟩

/-- Removing the out-of-window snapshots from a history changes nothing
in the per-game contribution list of get_history_aggregate. -/
lemma aggContribs_dropOutOfWindow (freq : String) (year_min year_max : Nat) (g : Game) :
    aggContribs freq year_min year_max (dropOutOfWindow year_min year_max g) =
      aggContribs freq year_min year_max g := by
  rw [aggContribs, aggContribs]
  have hh : (dropOutOfWindow year_min year_max g).history =
      g.history.filter (fun s =>
        decide (year_min ≤ yearOfMs s.timeStamp)
          && decide (yearOfMs s.timeStamp ≤ year_max)) := rfl
  rw [hh, filter_sortTs]
  have hkeys : periodKeys (usableInWindow year_min year_max)
      (fun s => periodOf freq s.timeStamp)
      ((sortTs g.history).filter (fun s =>
        decide (year_min ≤ yearOfMs s.timeStamp)
          && decide (yearOfMs s.timeStamp ≤ year_max))) =
      periodKeys (usableInWindow year_min year_max)
        (fun s => periodOf freq s.timeStamp) (sortTs g.history) := by
    rw [periodKeys, periodKeys, List.filter_filter]
    have hcong := List.filter_congr (l := sortTs g.history)
      (p := fun a => usableInWindow year_min year_max a &&
        (decide (year_min ≤ yearOfMs a.timeStamp)
          && decide (yearOfMs a.timeStamp ≤ year_max)))
      (q := fun a => usableInWindow year_min year_max a) ?_
    · rw [hcong]
    · intro a _
      show (usableInWindow year_min year_max a &&
          (decide (year_min ≤ yearOfMs a.timeStamp)
            && decide (yearOfMs a.timeStamp ≤ year_max))) =
        usableInWindow year_min year_max a
      by_cases hu : usableInWindow year_min year_max a = true
      · rw [hu, usable_imp_window year_min year_max a hu]
        rfl
      · have hu2 : usableInWindow year_min year_max a = false :=
          Bool.eq_false_iff.mpr hu
        rw [hu2]
        rfl
  have hbp : ∀ pp, byPeriod (usableInWindow year_min year_max)
      (fun s => periodOf freq s.timeStamp)
      ((sortTs g.history).filter (fun s =>
        decide (year_min ≤ yearOfMs s.timeStamp)
          && decide (yearOfMs s.timeStamp ≤ year_max))) pp =
      byPeriod (usableInWindow year_min year_max)
        (fun s => periodOf freq s.timeStamp) (sortTs g.history) pp := by
    intro pp
    rw [byPeriod, byPeriod]
    refine lastSat_filter ?_ (sortTs g.history)
    intro z hz
    rw [Bool.and_eq_true] at hz
    exact usable_imp_window year_min year_max z hz.1
  rw [periodItems, periodItems, hkeys]
  have hfm : (fun p => (byPeriod (usableInWindow year_min year_max)
      (fun s => periodOf freq s.timeStamp)
      ((sortTs g.history).filter (fun s =>
        decide (year_min ≤ yearOfMs s.timeStamp)
          && decide (yearOfMs s.timeStamp ≤ year_max))) p).map (fun s => (p, s))) =
      (fun p => (byPeriod (usableInWindow year_min year_max)
        (fun s => periodOf freq s.timeStamp) (sortTs g.history) p).map
          (fun s => (p, s))) := by
    funext pp
    rw [hbp pp]
  rw [hfm]

/-- Claim C10: under the year window of get_history_aggregate every
period key of the yearly aggregate lies within [year_min, year_max],
and snapshots whose calendar year falls outside the window contribute
nothing: removing them from every history leaves the aggregate
unchanged, so they neither create periods nor influence the increment
baselines of in-window periods (whose walk still starts at baseline 0). -/
theorem c10_window (games : List Game) (year_min year_max : Nat) :
    (∀ (p : Nat) (e : AggEntry),
        (p, e) ∈ get_history_aggregate games ("yearly") year_min year_max →
        year_min ≤ p ∧ p ≤ year_max) ∧
    (∀ freq : String,
        get_history_aggregate games freq year_min year_max =
          get_history_aggregate (games.map (dropOutOfWindow year_min year_max)) freq
            year_min year_max) := by
  constructor
  · intro p e hmem
    simp only [get_history_aggregate] at hmem
    obtain ⟨p0, hp0, heq⟩ := List.mem_map.mp hmem
    have hpp : p0 = p := congrArg Prod.fst heq
    subst hpp
    rw [mem_sortAscNat, mem_firstDedup] at hp0
    obtain ⟨pc, hpc, hfst⟩ := List.mem_map.mp hp0
    rw [allAggContribs] at hpc
    obtain ⟨lg, hlg, hpcin⟩ := List.mem_flatten.mp hpc
    obtain ⟨g, _, hlg2⟩ := List.mem_map.mp hlg
    subst hlg2
    rw [aggContribs] at hpcin
    obtain ⟨w, hw, heq2⟩ := List.mem_map.mp hpcin
    have hw2 := mem_walkPrev hw
    have hpi : (w.1.1, w.1.2) ∈ periodItems (usableInWindow year_min year_max)
        (fun s => periodOf ("yearly") s.timeStamp) (sortTs g.history) := by
      simpa using hw2
    obtain ⟨_, hkey⟩ := mem_periodItems hpi
    obtain ⟨s, _, hu, hk⟩ := mem_periodKeys.mp hkey
    have hpc1 : pc.1 = w.1.1 := (congrArg Prod.fst heq2).symm
    have hp0w : p0 = w.1.1 := hfst ▸ hpc1
    rw [usableInWindow, Bool.and_eq_true, Bool.and_eq_true] at hu
    have hyear : periodOf ("yearly") s.timeStamp = yearOfMs s.timeStamp := by
      rw [periodOf, if_pos rfl]
    rw [hyear] at hk
    rw [hp0w, ← hk]
    exact ⟨of_decide_eq_true hu.1.2, of_decide_eq_true hu.2⟩
  · intro freq
    have hgc : ∀ g ∈ games,
        (aggContribs freq year_min year_max ∘ dropOutOfWindow year_min year_max) g =
          aggContribs freq year_min year_max g := fun g _ =>
      aggContribs_dropOutOfWindow freq year_min year_max g
    have hall : allAggContribs (games.map (dropOutOfWindow year_min year_max)) freq
        year_min year_max = allAggContribs games freq year_min year_max := by
      rw [allAggContribs, allAggContribs, List.map_map, List.map_congr_left hgc]
    simp only [get_history_aggregate, aggBucket, hall]

/-- Claim C10 witness: a 1970 snapshot with large cumulative values
contributes nothing under the default 2015..2026 window: the only period
is 2020, inside the window, and dropping the 1970 snapshot leaves the
aggregate unchanged (the 2020 increment is computed against baseline 0,
not against the 1970 values). -/
theorem c10_window_witness :
    (2015 ≤ 2020 ∧ 2020 ≤ 2026) ∧
    get_history_aggregate [gW] ("yearly") 2015 2026 =
      get_history_aggregate ([gW].map (dropOutOfWindow 2015 2026)) ("yearly") 2015 2026 ∧
    get_history_aggregate [gW] ("yearly") 2015 2026 = [(2020, eW)] :=
  ⟨(c10_window [gW] 2015 2026).1 2020 eW (by decide!),
   (c10_window [gW] 2015 2026).2 ("yearly"),
   by decide!⟩

